import Mathlib

/-!
A shallow embedding of the HED string parsing core of the hed-standard/hed-typescript
repository, together with theorems settling a fixed list of claims about it.

Conventions used throughout:
* JavaScript strings are modeled as Lean strings (sequences of Unicode scalar values).
* JavaScript numbers appearing in the temporal event manager are modeled as exact
  rationals.
* Issue objects are modeled by their internal code together with the numeric index
  parameter passed by the tokenizer; the free-form message parameters never influence
  control flow and are omitted.
* JavaScript Map objects (the definition registry, the event manager map) are modeled
  as association lists with Map lookup and insertion semantics.
* The sort comparators used on normalized strings (the default comparator of
  Array.prototype.sort and localeCompare in toSorted) are modeled as the lexicographic
  order on strings; each is a total order, which is all the normalization theorems use.
-/

namespace HedModel

/-- An issue, identified by its internal code and, for tokenizer issues, by the index
parameter it was generated with. -/
structure Issue where
  internalCode : String
  index : Option Nat := none
deriving DecidableEq, Repr

/-- The characters treated as whitespace by the JavaScript string trimming functions
(the WhiteSpace and LineTerminator code points). -/
def isJsWhitespace (c : Char) : Bool :=
  c.val = 0x09 || c.val = 0x0A || c.val = 0x0B || c.val = 0x0C || c.val = 0x0D ||
  c.val = 0x20 || c.val = 0xA0 || c.val = 0x1680 ||
  (0x2000 ≤ c.val && c.val ≤ 0x200A) ||
  c.val = 0x2028 || c.val = 0x2029 || c.val = 0x202F || c.val = 0x205F ||
  c.val = 0x3000 || c.val = 0xFEFF

/-- JavaScript String.prototype.trim. -/
def jsTrim (s : String) : String :=
  ⟨((s.data.dropWhile isJsWhitespace).reverse.dropWhile isJsWhitespace).reverse⟩

/-- JavaScript String.prototype.trimStart. -/
def jsTrimStart (s : String) : String :=
  ⟨s.data.dropWhile isJsWhitespace⟩

/-- JavaScript String.prototype.slice with nonnegative arguments, which is the only
form the embedded code uses. -/
def jsSlice (s : String) (a b : Nat) : String :=
  ⟨(s.data.drop a).take (b - a)⟩

/-- JavaScript String.prototype.slice with only a start argument. -/
def jsSliceFrom (s : String) (a : Nat) : String :=
  ⟨s.data.drop a⟩

/-- JavaScript String.prototype.substring with ordered nonnegative arguments. -/
def jsSubstring (s : String) (a b : Nat) : String :=
  jsSlice s a b

/-- JavaScript String.prototype.charAt; out-of-range accesses never occur at the
embedded call sites, so the default is irrelevant. -/
def jsCharAt (s : String) (i : Nat) : Char :=
  s.data.getD i (Char.ofNat 0)

/-- JavaScript String.prototype.split with a one-character separator, which is the
only form the embedded code uses. -/
def jsSplitOnChar (c : Char) (s : String) : List String :=
  go s.data []
where
  /-- The accumulator recursion of jsSplitOnChar. -/
  go : List Char → List Char → List String
  | [], acc => [⟨acc.reverse⟩]
  | x :: rest, acc =>
      if x = c then ⟨acc.reverse⟩ :: go rest [] else go rest (x :: acc)

/-- JavaScript String.prototype.includes with a one-character argument. -/
def jsContainsChar (s : String) (c : Char) : Bool :=
  s.data.contains c

/-- JavaScript String.prototype.endsWith with a one-character argument. -/
def jsEndsWithChar (s : String) (c : Char) : Bool :=
  s.data.getLast? = some c

/-- JavaScript String.prototype.startsWith with a one-character argument. -/
def jsStartsWithChar (s : String) (c : Char) : Bool :=
  s.data.head? = some c

/-- JavaScript String.prototype.toLowerCase, modeled as ASCII lowering (the tag
names the embedded code lowers are ASCII). -/
def jsToLower (s : String) : String :=
  ⟨s.data.map Char.toLower⟩

/-- Tokenizer helper getTrimmedBounds: the bounds of the non-whitespace core of a
string, or none when the string is entirely whitespace. -/
def getTrimmedBounds (s : String) : Option (Nat × Nat) :=
  let l := s.data
  let start := l.findIdx (fun c => !(isJsWhitespace c))
  if start = l.length then none
  else
    let fromEnd := l.reverse.findIdx (fun c => !(isJsWhitespace c))
    some (start, l.length - fromEnd)

/-- The tokenizer set of invalid characters: brackets, tilde, double quote, and the
ASCII and Latin-1 control ranges. -/
def isInvalidCharacter (c : Char) : Bool :=
  c = '[' || c = ']' || c = '~' || c = '"' ||
  c.val ≤ 0x1f || (0x7f ≤ c.val && c.val ≤ 0x9f)

/-- Tokenized tag specification (tokenizer class TagSpec). -/
structure TagSpec where
  tag : String
  start : Nat
  stop : Nat
  library : String
deriving DecidableEq, Repr

/-- Tokenized column splice specification (tokenizer class ColumnSpliceSpec). -/
structure ColumnSpliceSpec where
  columnName : String
  start : Nat
  stop : Nat
deriving DecidableEq, Repr

/-- Tokenized group specification (tokenizer class GroupSpec); the end bound is
patched when the group is closed, so it is optional. -/
inductive GroupSpecT where
  | node (start : Nat) (stop : Option Nat) (children : List GroupSpecT)

/-- Start bound of a group specification. -/
def GroupSpecT.start : GroupSpecT → Nat
  | .node a _ _ => a

/-- End bound of a group specification. -/
def GroupSpecT.stop : GroupSpecT → Option Nat
  | .node _ b _ => b

/-- Children of a group specification. -/
def GroupSpecT.children : GroupSpecT → List GroupSpecT
  | .node _ _ c => c

/-- A node of the token forest returned by the tokenizer: the RecursiveArray of
SubstringSpec, where nested arrays represent parenthesized groups. -/
inductive TokNode where
  | tag (t : TagSpec)
  | splice (c : ColumnSpliceSpec)
  | sub (children : List TokNode)

/-- The mutable scan state of the tokenizer (class TokenizerState).  The two stacks
are represented with their top as the list head (JavaScript pushes and pops at the
array end). -/
structure TokenizerState where
  currentToken : String
  groupDepth : Nat
  startingIndex : Nat
  lastDelimiterChar : Option Char
  lastDelimiterPos : Int
  librarySchema : String
  lastSlash : Int
  currentGroupStack : List (List TokNode)
  parenthesesStack : List GroupSpecT
  issues : List Issue

/-- The initial scan state. -/
def TokenizerState.initial : TokenizerState :=
  { currentToken := "", groupDepth := 0, startingIndex := 0,
    lastDelimiterChar := none, lastDelimiterPos := -1, librarySchema := "",
    lastSlash := -1, currentGroupStack := [[]], parenthesesStack := [], issues := [] }

namespace HedStringTokenizer

/-- Append an issue to the issue list (methods pushIssue, pushInvalidTag and
pushInvalidCharacterIssue, which differ only in dropped message parameters). -/
def pushIssue (st : TokenizerState) (code : String) (index : Nat) : TokenizerState :=
  { st with issues := st.issues ++ [{ internalCode := code, index := some index }] }

/-- Append a token to the innermost open level, i.e. the end of the top array of
currentGroupStack. -/
def pushToCurrentLevel (st : TokenizerState) (n : TokNode) : TokenizerState :=
  match st.currentGroupStack with
  | [] => st
  | level :: rest => { st with currentGroupStack := (level ++ [n]) :: rest }

/-- Method resetToken. -/
def resetToken (st : TokenizerState) (i : Nat) : TokenizerState :=
  { st with
      startingIndex := i + 1, currentToken := "", librarySchema := "",
      lastSlash := -1 }

/-- Private method checkForBadPlaceholderIssues; only the emptiness of the returned
message is ever observed. -/
def checkForBadPlaceholderIssues (st : TokenizerState) : String :=
  let tokenSplit := jsSplitOnChar '#' st.currentToken
  if tokenSplit.length = 1 then ""
  else if tokenSplit.length > 2 then "more than one placeholder found"
  else if !(jsEndsWithChar (tokenSplit.headD "") '/') then
    "placeholder not preceded by a slash"
  else if (jsTrim (tokenSplit.getD 1 "")).length > 0 &&
      !(jsStartsWithChar (tokenSplit.getD 1 "") ' ') then
    "units following a placeholder must be preceded by a blank"
  else ""

/-- Method pushTag. -/
def pushTag (st : TokenizerState) (i : Nat) : TokenizerState :=
  if (jsTrim st.currentToken).length = 0 then
    pushIssue st "emptyTagFound" i
  else if (checkForBadPlaceholderIssues st).length > 0 then
    pushIssue st "invalidPlaceholder" i
  else
    match getTrimmedBounds st.currentToken with
    | none => st
    | some (b0, b1) =>
        let spec : TagSpec :=
          { tag := jsTrim st.currentToken, start := st.startingIndex + b0,
            stop := st.startingIndex + b1, library := st.librarySchema }
        resetToken (pushToCurrentLevel st (.tag spec)) i

/-- Method closeGroup: pop the open group, patch its end bound, flag empty groups and
attach it to its parent on both stacks. -/
def closeGroup (s : String) (st : TokenizerState) (i : Nat) : TokenizerState :=
  match st.parenthesesStack with
  | [] => st
  | spec :: restParens =>
      let closed : GroupSpecT := .node spec.start (some (i + 1)) spec.children
      let st := { st with parenthesesStack := restParens }
      let st :=
        if (jsTrim (jsSlice s (spec.start + 1) i)).length = 0 then
          pushIssue st "emptyTagFound" i
        else st
      let st :=
        match st.parenthesesStack with
        | [] => st
        | parent :: rest =>
            { st with
                parenthesesStack :=
                  GroupSpecT.node parent.start parent.stop (parent.children ++ [closed]) ::
                    rest }
      let st :=
        match st.currentGroupStack with
        | [] => st
        | level :: rest =>
            match rest with
            | [] => { st with currentGroupStack := [] }
            | parentLevel :: rest2 =>
                { st with
                    currentGroupStack := (parentLevel ++ [TokNode.sub level]) :: rest2 }
      { st with groupDepth := st.groupDepth - 1 }

/-- Method handleComma. -/
def handleComma (s : String) (st : TokenizerState) (i : Nat) : TokenizerState :=
  let trimmed := jsTrim (jsSlice s (st.lastDelimiterPos + 1).toNat i)
  let st :=
    if (st.lastDelimiterChar = some '(' ∨ st.lastDelimiterChar = some ',' ∨
        st.lastDelimiterChar = none) ∧ trimmed.length = 0 then
      pushIssue st "emptyTagFound" i
    else if st.lastDelimiterChar = some '{' then
      pushIssue st "unclosedCurlyBrace" st.lastDelimiterPos.toNat
    else st
  let st :=
    if (st.lastDelimiterChar = some ')' ∨ st.lastDelimiterChar = some '}') ∧
        trimmed.length > 0 then
      pushIssue st "invalidTag" i
    else if trimmed.length > 0 then
      pushTag st i
    else
      resetToken st i
  { st with lastDelimiterChar := some ',', lastDelimiterPos := i }

/-- Method handleSlash. -/
def handleSlash (s : String) (st : TokenizerState) (i : Nat) : TokenizerState :=
  if (jsTrim st.currentToken).length = 0 then
    pushIssue st "extraSlash" i
  else if 0 ≤ st.lastSlash ∧
      (jsTrim (jsSlice s (st.lastSlash + 1).toNat i)).length = 0 then
    pushIssue st "extraSlash" i
  else if 0 < i ∧ jsCharAt s (i - 1) = ' ' then
    pushIssue st "extraBlank" (i - 1)
  else if i < s.length - 1 ∧ jsCharAt s (i + 1) = ' ' then
    pushIssue st "extraBlank" (i + 1)
  else if (jsTrim (jsSliceFrom s i)).length = 0 then
    pushIssue st "extraSlash" st.startingIndex
  else
    { st with currentToken := st.currentToken ++ "/", lastSlash := i }

/-- Method handleOpeningGroup. -/
def handleOpeningGroup (st : TokenizerState) (i : Nat) : TokenizerState :=
  if st.lastDelimiterChar = some '{' then
    pushIssue st "unclosedCurlyBrace" st.lastDelimiterPos.toNat
  else if st.lastDelimiterChar = some '}' then
    pushIssue st "commaMissing" st.lastDelimiterPos.toNat
  else if st.lastDelimiterChar = some ')' then
    pushIssue st "commaMissing" (st.lastDelimiterPos + 1).toNat
  else if (jsTrim st.currentToken).length > 0 then
    pushIssue st "commaMissing" i
  else
    let st :=
      { st with
          currentGroupStack := [] :: st.currentGroupStack,
          parenthesesStack := GroupSpecT.node i none [] :: st.parenthesesStack }
    let st := resetToken st i
    { st with
        groupDepth := st.groupDepth + 1, lastDelimiterChar := some '(',
        lastDelimiterPos := i }

/-- Method handleClosingGroup. -/
def handleClosingGroup (s : String) (st : TokenizerState) (i : Nat) : TokenizerState :=
  if st.groupDepth = 0 then
    pushIssue st "unopenedParenthesis" i
  else if st.lastDelimiterChar = some '{' then
    pushIssue st "unclosedCurlyBrace" st.lastDelimiterPos.toNat
  else
    let st :=
      if st.lastDelimiterChar = some '(' ∨ st.lastDelimiterChar = some ',' then
        pushTag st i
      else st
    let st := closeGroup s st i
    { st with lastDelimiterChar := some ')', lastDelimiterPos := i }

/-- Method handleOpeningColumn. -/
def handleOpeningColumn (st : TokenizerState) (i : Nat) : TokenizerState :=
  if (jsTrim st.currentToken).length > 0 then
    pushIssue st "invalidCharacter" i
  else if st.lastDelimiterChar = some '{' then
    pushIssue st "nestedCurlyBrace" i
  else
    { st with lastDelimiterChar := some '{', lastDelimiterPos := i }

/-- Method handleClosingColumn. -/
def handleClosingColumn (st : TokenizerState) (i : Nat) : TokenizerState :=
  if ¬ (st.lastDelimiterChar = some '{') then
    pushIssue st "unopenedCurlyBrace" i
  else if (jsTrim st.currentToken).length = 0 then
    pushIssue st "emptyCurlyBrace" i
  else
    let spec : ColumnSpliceSpec :=
      { columnName := jsTrim st.currentToken, start := st.lastDelimiterPos.toNat,
        stop := i }
    let st := resetToken (pushToCurrentLevel st (.splice spec)) i
    { st with lastDelimiterChar := some '}', lastDelimiterPos := i }

/-- Method handleColon. -/
def handleColon (st : TokenizerState) (i : Nat) : TokenizerState :=
  let trimmed := jsTrim st.currentToken
  if st.librarySchema ≠ "" ∨ jsContainsChar trimmed ' ' ∨ jsContainsChar trimmed '/' then
    { st with currentToken := st.currentToken ++ ":" }
  else if trimmed.data.any (fun c => !c.isAlpha) then
    pushIssue st "invalidTagPrefix" i
  else
    let lib := jsTrimStart st.currentToken
    let st := resetToken st i
    { st with librarySchema := lib }

/-- Method handleCharacter: dispatch on the delimiter table, then the invalid
character set, before accumulating the character into the current token. -/
def handleCharacter (s : String) (st : TokenizerState) (i : Nat) (c : Char) :
    TokenizerState :=
  if c = '(' then handleOpeningGroup st i
  else if c = ')' then handleClosingGroup s st i
  else if c = '{' then handleOpeningColumn st i
  else if c = '}' then handleClosingColumn st i
  else if c = ',' then handleComma s st i
  else if c = ':' then handleColon st i
  else if c = '/' then handleSlash s st i
  else if isInvalidCharacter c then pushIssue st "invalidCharacter" i
  else { st with currentToken := st.currentToken.push c }

/-- Method unwindGroupStack, written with the group depth as explicit fuel: each
closeGroup decrements the depth by one, so the while loop runs exactly groupDepth
times. -/
def unwindGroupStack (s : String) : Nat → TokenizerState → TokenizerState
  | 0, st => st
  | fuel + 1, st =>
      if st.groupDepth = 0 then st
      else
        let topStart := (st.parenthesesStack.headD (.node 0 none [])).start
        let st := pushIssue st "unclosedParenthesis" topStart
        unwindGroupStack s fuel (closeGroup s st s.length)

/-- Method finalizeTokenizer. -/
def finalizeTokenizer (s : String) (st : TokenizerState) : TokenizerState :=
  let st :=
    if st.lastDelimiterChar = some '{' then
      pushIssue st "unclosedCurlyBrace" st.lastDelimiterPos.toNat
    else if st.lastDelimiterChar = some '(' then
      pushIssue st "unclosedParentheses" st.lastDelimiterPos.toNat
    else if st.lastDelimiterChar = some ',' ∧
        (jsTrim (jsSliceFrom s (st.lastDelimiterPos + 1).toNat)).length = 0 then
      pushIssue st "emptyTagFound" st.lastDelimiterPos.toNat
    else if 0 ≤ st.lastSlash ∧
        (jsTrim (jsSliceFrom s (st.lastSlash + 1).toNat)).length = 0 then
      pushIssue st "extraSlash" st.lastSlash.toNat
    else st
  if (jsTrim st.currentToken).length > 0 ∧
      ¬ (st.lastDelimiterChar = none ∨ st.lastDelimiterChar = some ',') then
    pushIssue st "commaMissing" (st.lastDelimiterPos + 1).toNat
  else
    let st := if (jsTrim st.currentToken).length > 0 then pushTag st s.length else st
    unwindGroupStack s st.groupDepth st

/-- The single left-to-right scan of method tokenize, which aborts as soon as the
character just handled produced an issue. -/
def scan (s : String) : TokenizerState → Nat → List Char → TokenizerState
  | st, _, [] => st
  | st, i, c :: rest =>
      let st1 := handleCharacter s st i c
      if st1.issues.length > 0 then st1 else scan s st1 (i + 1) rest

/-- Method tokenize. -/
def tokenize (s : String) : List TokNode × Option GroupSpecT × List Issue :=
  let st0 : TokenizerState :=
    { TokenizerState.initial with parenthesesStack := [.node 0 (some s.length) []] }
  if (jsTrim s).length = 0 then
    ([], none, [{ internalCode := "emptyTagFound", index := some 0 }])
  else
    let st := scan s st0 0 s.data
    if st.issues.length > 0 then ([], none, st.issues)
    else
      let st := finalizeTokenizer s st
      if st.issues.length > 0 then ([], none, st.issues)
      else (st.currentGroupStack.headD [], st.parenthesesStack.head?, [])

end HedStringTokenizer




/-! ## Schema collaborator model

The schema entries module is one of the external collaborators of the core (it is
not among the embedded sources); the structures below model exactly the interface
the core consumes: tag lookup by lowercased name, parent handles, attribute sets,
declared unit and value classes, value-class validation and unit extraction. -/

/-- A schema tag entry as consumed from the schema collaborator (classes SchemaTag
and SchemaValueTag of the schema entries module). -/
structure SchemaTagM where
  name : String
  longName : String
  parent : Option Nat
  isValueTag : Bool
  attributes : List String
  unitClasses : List String
  valueClassNames : Option (List String)
  valueTagIdx : Option Nat
deriving DecidableEq, Repr, Inhabited

/-- A schema handle (class HedSchema with its entry managers), modeled as an arena of
schema tags plus the collaborator functions of the external interface. -/
structure HedSchemaM where
  prefixStr : String
  tags : List SchemaTagM
  getEntry : String → Option Nat
  nameClassValidate : String → Bool
  valueClassValidate : String → String → Bool
  extractUnit : String → String → Option String × Option String × String

/-- A collection of schemas keyed by library prefix (class HedSchemas). -/
structure HedSchemasM where
  getSchema : String → Option HedSchemaM

/-- The tag stored at an arena handle. -/
def HedSchemaM.tagAt (sc : HedSchemaM) (i : Nat) : SchemaTagM :=
  sc.tags.getD i default

/-- Whether the tag at a handle has a named attribute. -/
def HedSchemaM.hasAttr (sc : HedSchemaM) (i : Nat) (a : String) : Bool :=
  (sc.tagAt i).attributes.contains a

/-- Modelled from the spec: SchemaTag.extend of the schema entries module extends the
short-form tag name with the remainder of the tag string. -/
def SchemaTagM.extend (t : SchemaTagM) (remainder : String) : String :=
  if remainder = "" then t.name else t.name ++ "/" ++ remainder

/-- Modelled from the spec: SchemaTag.longExtend extends the long-form (canonical
path) tag name with the remainder of the tag string. -/
def SchemaTagM.longExtend (t : SchemaTagM) (remainder : String) : String :=
  if remainder = "" then t.longName else t.longName ++ "/" ++ remainder

/-- The requirement record of a reserved tag (interface ReservedTagRequirement,
loaded from the reservedTags.json data file, which is not among the embedded
sources; the fields the embedded code never reads are omitted). -/
structure ReservedTagRequirementM where
  name : String
  noExtension : Bool
  requireValue : Bool
  topLevelTagGroup : Bool
  maxNonDefSubgroups : Option Nat
  minNonDefSubgroups : Option Nat
  requiresDef : Bool
  requiresTimeline : Bool
  otherAllowedNonDefTags : Option (List String)
deriving DecidableEq, Repr, Inhabited

/-- The reserved tag registry (class ReservedChecker); the lazily constructed
singleton is modeled as an explicit parameter. -/
structure ReservedCheckerM where
  reservedMap : List (String × ReservedTagRequirementM)

namespace ReservedCheckerM

/-- Lookup in the reserved map. -/
def lookup (r : ReservedCheckerM) (name : String) : Option ReservedTagRequirementM :=
  (r.reservedMap.find? (fun p => p.1 = name)).map Prod.snd

/-- The reservedNames set. -/
def reservedNames (r : ReservedCheckerM) : List String :=
  r.reservedMap.map Prod.fst

/-- The requireValueTags set. -/
def requireValueTags (r : ReservedCheckerM) : List String :=
  (r.reservedMap.filter (fun p => p.2.requireValue)).map (fun p => p.2.name)

/-- The noExtensionTags set. -/
def noExtensionTags (r : ReservedCheckerM) : List String :=
  (r.reservedMap.filter (fun p => p.2.noExtension)).map (fun p => p.2.name)

/-- The requiresDefTags set. -/
def requiresDefTags (r : ReservedCheckerM) : List String :=
  (r.reservedMap.filter (fun p => p.2.requiresDef)).map (fun p => p.2.name)

end ReservedCheckerM

/-! ## Tag converter -/

namespace TagConverter

/-- The once-settable pair of fields this.schemaTag and this.remainder of the
converter: the outer option is whether _setSchemaTag has run, the inner option is
the possibly absent tag it stored. -/
structure ConvState where
  schemaTag : Option (Option Nat)
  remainder : String

/-- Method _setSchemaTag: a no-op once the schema tag has been set; otherwise store
the tag and the remaining levels, and reject tags that require a child when the
remainder is empty. -/
def setSchemaTag (sc : HedSchemaM) (tagLevels : List String) (cur : ConvState)
    (newTag : Option Nat) (remainderStartLevelIndex : Nat) : Except Issue ConvState :=
  match cur.schemaTag with
  | some _ => .ok cur
  | none =>
      let remainder := String.intercalate "/" (tagLevels.drop remainderStartLevelIndex)
      let requireChild :=
        match newTag with
        | some idx => sc.hasAttr idx "requireChild"
        | none => false
      if requireChild = true ∧ remainder = "" then
        .error { internalCode := "childRequired" }
      else
        .ok { schemaTag := some newTag, remainder := remainder }

/-- Method _getSchemaTag: look the level up by lowercased name. -/
def getSchemaTag (sc : HedSchemaM) (tagLevels : List String) (i : Nat) : Option Nat :=
  sc.getEntry (jsToLower (tagLevels.getD i ""))

/-- Method _checkNameClass: a tag extension level must satisfy the nameClass value
class. -/
def checkNameClass (sc : HedSchemaM) (tagLevels : List String) (i : Nat) :
    Except Issue Unit :=
  if ¬ sc.nameClassValidate (tagLevels.getD i "") then
    .error { internalCode := "invalidExtension" }
  else
    .ok ()

/-- The loop of method _checkExtensions over the levels after the first extension
level: any schema tag appearing after an extension is an invalidParentNode, and each
level must satisfy the name class. -/
def checkExtensionTail (sc : HedSchemaM) (tagLevels : List String) :
    List Nat → Except Issue Unit
  | [] => .ok ()
  | i :: rest => do
      if (getSchemaTag sc tagLevels i).isSome then
        throw { internalCode := "invalidParentNode" }
      checkNameClass sc tagLevels i
      checkExtensionTail sc tagLevels rest

/-- Method _checkExtensions. -/
def checkExtensions (sc : HedSchemaM) (tagLevels : List String) (tagLevelIndex : Nat) :
    Except Issue Unit := do
  checkNameClass sc tagLevels tagLevelIndex
  checkExtensionTail sc tagLevels ((List.range tagLevels.length).drop (tagLevelIndex + 1))

/-- Method _validateChildTag. -/
def validateChildTag (sc : HedSchemaM) (reserved : ReservedCheckerM)
    (tagLevels : List String) (parent : Option Nat) (i : Nat) :
    Except Issue (Option Nat) := do
  match getSchemaTag sc tagLevels i with
  | none => do
      if i = 0 then
        throw { internalCode := "invalidTag" }
      match parent with
      | some p =>
          if ¬ sc.hasAttr p "extensionAllowed" ∨
              (reserved.noExtensionTags).contains (sc.tagAt p).name then
            throw { internalCode := "invalidExtension" }
      | none => pure ()
      checkExtensions sc tagLevels i
      return none
  | some c => do
      if 0 < i ∧ ((sc.tagAt c).parent = none ∨ ¬ ((sc.tagAt c).parent = parent)) then
        throw { internalCode := "invalidParentNode" }
      return some c

/-- The truthiness of parentTag?.valueTag at the head of the convert loop. -/
def parentValueTag (sc : HedSchemaM) (parent : Option Nat) : Option Nat :=
  match parent with
  | some p => (sc.tagAt p).valueTagIdx
  | none => none

/-- The level-by-level loop of method convert; the loop is driven structurally by
the list of levels still to visit, with the running index kept alongside (the
callers maintain that the remaining list is tagLevels with the first i levels
dropped). -/
def convertLoop (sc : HedSchemaM) (reserved : ReservedCheckerM)
    (tagLevels : List String) :
    List String → Nat → Option Nat → ConvState → Except Issue ConvState
  | [], _, parent, cur =>
      setSchemaTag sc tagLevels cur parent (tagLevels.length + 1)
  | _ :: remaining, i, parent, cur =>
      match parentValueTag sc parent with
      | some v => setSchemaTag sc tagLevels cur (some v) i
      | none => do
          let child ← validateChildTag sc reserved tagLevels parent i
          let cur ←
            if child = none then setSchemaTag sc tagLevels cur parent i else pure cur
          convertLoop sc reserved tagLevels remaining (i + 1) child cur

/-- Method convert: resolve a tag specification to a schema tag handle and the
remainder of the tag string. -/
def convert (sc : HedSchemaM) (reserved : ReservedCheckerM) (tagSpec : TagSpec) :
    Except Issue (Option Nat × String) := do
  let tagLevels := jsSplitOnChar '/' tagSpec.tag
  let final ← convertLoop sc reserved tagLevels tagLevels 0 none
    { schemaTag := none, remainder := "" }
  return ((final.schemaTag.getD none), final.remainder)

end TagConverter


/-! ## Parsed nodes -/

/-- The TWO_LEVEL_TAGS set of the parsedHedTag module. -/
def twoLevelTags : List String := ["Definition", "Def", "Def-expand"]

/-- The schema-resolved data of a parsed HED tag (class ParsedHedTag), fully
materialized at construction.  schemaTagName and schemaTagAttributes are the name
and attribute set reached through the schemaTag getter, which resolves a
SchemaValueTag to its parent. -/
structure ParsedHedTagM where
  originalTag : String
  originalBounds : Nat × Nat
  library : String
  schemaPrefixStr : String
  schemaTagIdxRaw : Nat
  schemaTagName : String
  schemaTagAttributes : List String
  isValueTagResolved : Bool
  remainder : String
  canonicalTag : String
  formattedTag : String
  value : Option String
  splitValue : Option String
  units : Option String
  isDeprecated : Bool
  isExtended : Bool
  normalized : String
deriving DecidableEq, Repr

/-- Method _separateUnits: probe each declared unit class in order until one
extracts a unit; the variables keep the values of the last probe. -/
def separateUnitsGo (sc : HedSchemaM) (remainder : String) :
    List String → Option String × Option String × String
  | [] => (none, none, remainder)
  | [uc] => sc.extractUnit uc remainder
  | uc :: rest =>
      let r := sc.extractUnit uc remainder
      if r.1.isSome then r else separateUnitsGo sc remainder rest

/-- The truthiness of the uninvoked method reference this.takesValue tested by
checkValue: the source tests the function object itself rather than calling it, so
the test is always truthy and the no-value branch is dead. -/
def takesValueRefTruthy : Bool := true

/-- Method ParsedHedTag.checkValue; only the emptiness of the returned message is
observed by callers, a non-empty result marking the value invalid. -/
def checkValue (sc : HedSchemaM) (raw : SchemaTagM) (value : String) : String :=
  if ¬ takesValueRefTruthy then
    "tag does not take a value"
  else if value = "#" then ""
  else
    match raw.valueClassNames with
    | none =>
        if value.data.all (fun c => ¬ (c = '{' ∨ c = '}' ∨ c = ',')) then ""
        else "value contains curly braces or a comma"
    | some valueClassNames =>
        if valueClassNames.any (fun cn => sc.valueClassValidate cn value) then ""
        else "value not in any declared value class"

/-- Method _getSplitValue: reserved two-level tags split the remainder at the first
slash into the primary value and the sub-path; other tags get a null split value. -/
def getSplitValue (resolvedName : String) (remainder : String) :
    String × Option String :=
  if twoLevelTags.contains resolvedName then
    match jsSplitOnChar '/' remainder with
    | [] => ("", some "")
    | first :: restL => (first, some (String.intercalate "/" restL))
  else (remainder, none)

/-- Constructor of ParsedHedTag (constructor, _convertTag and _handleRemainder):
resolve the tag against the schema collection, compute its canonical, formatted and
normalized forms, and resolve value, split value and units for value-taking tags.
Thrown IssueErrors are the error side of Except. -/
def mkParsedHedTag (schemas : HedSchemasM) (reserved : ReservedCheckerM)
    (tagSpec : TagSpec) : Except Issue ParsedHedTagM := do
  let sc ←
    match schemas.getSchema tagSpec.library with
    | some sc => pure sc
    | none =>
        if tagSpec.library ≠ "" then
          throw { internalCode := "unmatchedLibrarySchema" }
        else
          throw { internalCode := "unmatchedBaseSchema" }
  let (schemaTagIdx?, remainder) ← TagConverter.convert sc reserved tagSpec
  let rawIdx ←
    match schemaTagIdx? with
    | some i => pure i
    | none => throw { internalCode := "internalError" }
  let raw := sc.tagAt rawIdx
  let canonicalTag := raw.longExtend remainder
  let formattedTag := jsToLower canonicalTag
  let resolved :=
    if raw.isValueTag then
      match raw.parent with
      | some p => sc.tagAt p
      | none => raw
    else raw
  let (value?, splitValue?, units?) ←
    if ¬ raw.isValueTag then
      pure ((none : Option String), (none : Option String), (none : Option String))
    else do
      if (raw.attributes.contains "requireChild" ∨
          (reserved.requireValueTags).contains raw.name) ∧ remainder = "" then
        throw { internalCode := "valueRequired" }
      let (value, rest) := getSplitValue resolved.name remainder
      let (actualUnit, actualUnitString, actualValueString) :=
        separateUnitsGo sc value raw.unitClasses
      if actualUnit = none ∧ ¬ (actualUnitString = none) then
        throw { internalCode := "unitClassInvalidUnit" }
      if ¬ (checkValue sc raw actualValueString = "") then
        throw { internalCode := "invalidValue" }
      pure (some actualValueString, rest, actualUnitString)
  let tagName := raw.extend remainder
  let normalized :=
    if sc.prefixStr ≠ "" then sc.prefixStr ++ ":" ++ tagName else tagName
  return {
    originalTag := tagSpec.tag
    originalBounds := (tagSpec.start, tagSpec.stop)
    library := tagSpec.library
    schemaPrefixStr := sc.prefixStr
    schemaTagIdxRaw := rawIdx
    schemaTagName := resolved.name
    schemaTagAttributes := resolved.attributes
    isValueTagResolved := raw.isValueTag
    remainder := remainder
    canonicalTag := canonicalTag
    formattedTag := formattedTag
    value := value?
    splitValue := splitValue?
    units := units?
    isDeprecated := resolved.attributes.contains "deprecatedFrom"
    isExtended := (¬ raw.isValueTag) ∧ ¬ (remainder = "")
    normalized := normalized }

/-- A parsed column splice (class ParsedHedColumnSplice). -/
structure ParsedHedColumnSpliceM where
  originalTag : String
  originalBounds : Nat × Nat
deriving DecidableEq, Repr

/-- The normalized (and formatted) form of a column splice: the column name wrapped
in curly braces. -/
def ParsedHedColumnSpliceM.normalized (c : ParsedHedColumnSpliceM) : String :=
  "\x7b" ++ c.originalTag ++ "\x7d"

/-- The original text and bounds of a parsed group node. -/
structure GroupInfo where
  originalTag : String
  originalBounds : Nat × Nat
deriving DecidableEq, Repr

/-- A parsed HED substring (abstract class ParsedHedSubstring with its variants
ParsedHedTag, ParsedHedGroup and ParsedHedColumnSplice). -/
inductive ParsedNode where
  | tag (t : ParsedHedTagM)
  | group (g : GroupInfo) (children : List ParsedNode)
  | splice (c : ParsedHedColumnSpliceM)

/-! ## Normalization -/

/-- The recursion of the lexicographic code-point comparison on strings. -/
def strLeGo : List Char → List Char → Bool
  | [], _ => true
  | _ :: _, [] => false
  | x :: xs, y :: ys =>
      if x.toNat < y.toNat then true
      else if y.toNat < x.toNat then false
      else strLeGo xs ys

/-- The lexicographic code-point comparison on strings, as a relation. -/
def strLeR (a b : String) : Prop := strLeGo a.data b.data = true

instance : DecidableRel strLeR := fun a b => by
  unfold strLeR
  infer_instance

/-- The comparator-based sorts of normalized items (Array.prototype.sort in
ParsedHedGroup.normalized and toSorted with localeCompare in
ParsedHedString._getNormalized), modeled as stable sorting by the lexicographic
order on strings. -/
def jsSortStrings (l : List String) : List String :=
  l.insertionSort strLeR

/-- Function getDuplicates of parseUtils: the distinct items occurring more than
once, in first-duplicate-occurrence order. -/
def getDuplicates (l : List String) : List String :=
  go l [] []
where
  /-- The checkSet and dupSet fold of getDuplicates. -/
  go : List String → List String → List String → List String
  | [], _, dups => dups.reverse
  | x :: rest, seen, dups =>
      if seen.contains x then
        if dups.contains x then go rest seen dups else go rest seen (x :: dups)
      else go rest (x :: seen) dups

/-- The duplicateTag issue raised by the normalization routines. -/
def duplicateTagIssue : Issue := { internalCode := "duplicateTag" }

mutual

/-- The normalized getter of a parsed node; for groups this is method
ParsedHedGroup.normalized, which recursively normalizes the children, sorts the
normal forms and throws a duplicateTag IssueError when two coincide. -/
def ParsedNode.normalized : ParsedNode → Except Issue String
  | .tag t => .ok t.normalized
  | .splice c => .ok c.normalized
  | .group _ children =>
      match normalizedList children with
      | .error e => .error e
      | .ok items =>
          let sorted := jsSortStrings items
          if ¬ (getDuplicates sorted = []) then .error duplicateTagIssue
          else .ok ("(" ++ String.intercalate "," sorted ++ ")")
termination_by structural n => n

/-- The map of the normalized getter over a list of children, in order, stopping at
the first thrown IssueError. -/
def normalizedList : List ParsedNode → Except Issue (List String)
  | [] => .ok []
  | n :: rest =>
      match n.normalized with
      | .error e => .error e
      | .ok s =>
          match normalizedList rest with
          | .error e => .error e
          | .ok others => .ok (s :: others)
termination_by structural l => l

end

/-- Method ParsedHedString._getNormalized: normalize and sort the top-level items,
throwing a duplicateTag IssueError when two coincide. -/
def getNormalizedString (parseTree : List ParsedNode) : Except Issue String :=
  match normalizedList parseTree with
  | .error e => .error e
  | .ok normalizedItems =>
      let sorted := jsSortStrings normalizedItems
      if ¬ (getDuplicates sorted = []) then .error duplicateTagIssue
      else .ok (String.intercalate "," sorted)

/-! ## Derived views of groups and strings -/

/-- Function filterByClass specialized to tags. -/
def topTagsOf (children : List ParsedNode) : List ParsedHedTagM :=
  children.filterMap fun n =>
    match n with
    | .tag t => some t
    | _ => none

/-- Function filterByClass specialized to groups. -/
def topGroupsOf (children : List ParsedNode) : List (GroupInfo × List ParsedNode) :=
  children.filterMap fun n =>
    match n with
    | .group g ch => some (g, ch)
    | _ => none

/-- Function filterByClass specialized to column splices. -/
def topSplicesOf (children : List ParsedNode) : List ParsedHedColumnSpliceM :=
  children.filterMap fun n =>
    match n with
    | .splice c => some c
    | _ => none

mutual

/-- The per-node step of method ParsedHedGroup.tagIterator. -/
def tagIteratorNode : ParsedNode → List ParsedHedTagM
  | .tag t => [t]
  | .group _ ch => tagIteratorList ch
  | .splice _ => []
termination_by structural n => n

/-- Method ParsedHedGroup.tagIterator flattened to a list: the tags of a forest in
depth-first order. -/
def tagIteratorList : List ParsedNode → List ParsedHedTagM
  | [] => []
  | n :: rest => tagIteratorNode n ++ tagIteratorList rest
termination_by structural l => l

end

mutual

/-- The per-node step of method ParsedHedGroup.columnSpliceIterator. -/
def columnSpliceIteratorNode : ParsedNode → List ParsedHedColumnSpliceM
  | .tag _ => []
  | .group _ ch => columnSpliceIteratorList ch
  | .splice c => [c]
termination_by structural n => n

/-- Method ParsedHedGroup.columnSpliceIterator flattened to a list. -/
def columnSpliceIteratorList : List ParsedNode → List ParsedHedColumnSpliceM
  | [] => []
  | n :: rest => columnSpliceIteratorNode n ++ columnSpliceIteratorList rest
termination_by structural l => l

end

mutual

/-- The contribution of one top-level child to _getAllTags: a subgroup contributes
its own allTags, other nodes contribute nothing at this stage. -/
def groupAllTagsNode : ParsedNode → List ParsedHedTagM
  | .group _ ch => topTagsOf ch ++ gatherSubgroupTags ch
  | _ => []
termination_by structural n => n

/-- The flatMap over the top-level subgroups in _getAllTags. -/
def gatherSubgroupTags : List ParsedNode → List ParsedHedTagM
  | [] => []
  | n :: rest => groupAllTagsNode n ++ gatherSubgroupTags rest
termination_by structural l => l

end

/-- Method ParsedHedGroup._getAllTags on the children of a group: the top-level tags
followed by the allTags of each top-level subgroup. -/
def groupAllTags (children : List ParsedNode) : List ParsedHedTagM :=
  topTagsOf children ++ gatherSubgroupTags children

/-- Function categorizeTagsByName of parseUtils, with JavaScript Map insertion-order
semantics. -/
def categorizeTagsByName (tagList : List ParsedHedTagM) (tagNames : List String) :
    List (String × List ParsedHedTagM) :=
  tagList.foldl
    (fun m tag =>
      if tagNames.contains tag.schemaTagName then assocAppend m tag.schemaTagName tag
      else m)
    []
where
  /-- Append a value to the list bound to a key, preserving insertion order. -/
  assocAppend (m : List (String × List ParsedHedTagM)) (k : String)
      (v : ParsedHedTagM) : List (String × List ParsedHedTagM) :=
    if m.any (fun p => p.1 = k) then
      m.map (fun p => if p.1 = k then (p.1, p.2 ++ [v]) else p)
    else m ++ [(k, [v])]

/-- Method ParsedHedGroup._filterTopTagsByTagName. -/
def filterTopTagsByTagName (children : List ParsedNode) (tagName : String) :
    List ParsedHedTagM :=
  (topTagsOf children).filter (fun t => t.schemaTagName = tagName)

/-- Method ParsedHedGroup._filterSubgroupsByTagName (the top-level subgroups whose
own top tags include the named tag). -/
def filterSubgroupsByTagName (children : List ParsedNode) (tagName : String) :
    List (GroupInfo × List ParsedNode) :=
  (topGroupsOf children).filter
    (fun g => (topTagsOf g.2).any (fun t => t.schemaTagName = tagName))

/-- Field ParsedHedGroup.reservedTags. -/
def groupReservedTags (reserved : ReservedCheckerM) (children : List ParsedNode) :
    List (String × List ParsedHedTagM) :=
  categorizeTagsByName (topTagsOf children) reserved.reservedNames

/-- Field ParsedHedGroup.defExpandTags. -/
def groupDefExpandTags (children : List ParsedNode) : List ParsedHedTagM :=
  filterTopTagsByTagName children "Def-expand"

/-- Field ParsedHedGroup.definitionTags. -/
def groupDefinitionTags (children : List ParsedNode) : List ParsedHedTagM :=
  filterTopTagsByTagName children "Definition"

/-- Field ParsedHedGroup.defExpandChildren. -/
def groupDefExpandChildren (children : List ParsedNode) :
    List (GroupInfo × List ParsedNode) :=
  filterSubgroupsByTagName children "Def-expand"

/-- Field ParsedHedGroup.defTags. -/
def groupDefTags (children : List ParsedNode) : List ParsedHedTagM :=
  filterTopTagsByTagName children "Def"

/-- Field ParsedHedGroup.defCount. -/
def groupDefCount (children : List ParsedNode) : Nat :=
  (groupDefTags children).length + (groupDefExpandChildren children).length

/-- Field ParsedHedGroup.isDefinitionGroup. -/
def groupIsDefinitionGroup (children : List ParsedNode) : Bool :=
  ¬ (groupDefinitionTags children = [])

/-- Field ParsedHedGroup.requiresDefTag. -/
def groupRequiresDefTag (reserved : ReservedCheckerM) (children : List ParsedNode) :
    List ParsedHedTagM :=
  ((groupReservedTags reserved children).filter
    (fun p => (reserved.requiresDefTags).contains p.1)).flatMap Prod.snd

/-- A parsed HED string (class ParsedHedString); the flat index fields are derived
views recomputed by the functions below, and the eagerly computed normalized form is
stored. -/
structure ParsedHedStringM where
  hedString : String
  parseTree : List ParsedNode
  normalized : String

/-- Constructor of ParsedHedString; the duplicateTag IssueError thrown while
computing the normalized form is the error side of Except. -/
def mkParsedHedString (hedString : String) (parsedTags : List ParsedNode) :
    Except Issue ParsedHedStringM :=
  match getNormalizedString parsedTags with
  | .error e => .error e
  | .ok normalized =>
      .ok { hedString := hedString, parseTree := parsedTags, normalized := normalized }

namespace ParsedHedStringM

/-- Field tagGroups. -/
def tagGroups (ps : ParsedHedStringM) : List (GroupInfo × List ParsedNode) :=
  topGroupsOf ps.parseTree

/-- Field topLevelTags. -/
def topLevelTags (ps : ParsedHedStringM) : List ParsedHedTagM :=
  topTagsOf ps.parseTree

/-- Field tags: the top-level tags followed by the tag iterator of each top-level
group. -/
def tags (ps : ParsedHedStringM) : List ParsedHedTagM :=
  ps.topLevelTags ++ (ps.tagGroups.map (fun g => tagIteratorList g.2)).flatten

/-- Field columnSplices. -/
def columnSplices (ps : ParsedHedStringM) : List ParsedHedColumnSpliceM :=
  topSplicesOf ps.parseTree ++
    (ps.tagGroups.map (fun g => columnSpliceIteratorList g.2)).flatten

/-- Field topLevelGroupTags. -/
def topLevelGroupTags (ps : ParsedHedStringM) : List ParsedHedTagM :=
  (ps.tagGroups.map (fun g => topTagsOf g.2)).flatten

/-- Field definitions. -/
def definitions (ps : ParsedHedStringM) : List (GroupInfo × List ParsedNode) :=
  ps.tagGroups.filter (fun g => groupIsDefinitionGroup g.2)

end ParsedHedStringM


/-! ## Splitter -/

/-- The result of method _createParsedTag mapped over the token forest by
recursiveMap: a parsed node, null when tag construction threw, or a nested array. -/
inductive MappedTok where
  | leaf (n : Option ParsedNode)
  | sub (children : List MappedTok)

mutual

/-- Method _createParsedTag on one token, paired with the issues of a thrown tag
construction (method _handleIssueError keeps the issue of an IssueError). -/
def createParsedToken (schemas : HedSchemasM) (reserved : ReservedCheckerM) :
    TokNode → MappedTok × List Issue
  | TokNode.tag t =>
      (match mkParsedHedTag schemas reserved t with
       | .ok tag => (MappedTok.leaf (some (ParsedNode.tag tag)), [])
       | .error e => (MappedTok.leaf none, [e]))
  | TokNode.splice c =>
      (MappedTok.leaf (some (ParsedNode.splice
        { originalTag := c.columnName, originalBounds := (c.start, c.stop) })), [])
  | TokNode.sub ch =>
      let (chMapped, iss) := createParsedTokens schemas reserved ch
      (MappedTok.sub chMapped, iss)
termination_by structural n => n

/-- Phase one of _createParsedTags: recursiveMap of _createParsedTag over the token
forest, collecting the issues in traversal order. -/
def createParsedTokens (schemas : HedSchemasM) (reserved : ReservedCheckerM) :
    List TokNode → List MappedTok × List Issue
  | [] => ([], [])
  | n :: rest =>
      let (m, iss1) := createParsedToken schemas reserved n
      let (ns, iss2) := createParsedTokens schemas reserved rest
      (m :: ns, iss1 ++ iss2)
termination_by structural l => l

end

mutual

/-- The children of one nested array of phase two, parsed against the child group
specifications. -/
def createParsedGroupChildren (s : String) :
    MappedTok → List GroupSpecT → List ParsedNode
  | MappedTok.leaf _, _ => []
  | MappedTok.sub ch, childSpecs => createParsedGroups s ch childSpecs
termination_by structural m => m

/-- Whether a mapped token is a nested array. -/
def MappedTok.isSub : MappedTok → Bool
  | .sub _ => true
  | .leaf _ => false

/-- The parsed node of a mapped leaf token, when it is one and is non-null. -/
def MappedTok.leafNode : MappedTok → Option ParsedNode
  | .leaf n => n
  | .sub _ => none

/-- Phase two, method _createParsedGroups: wrap each nested array in a
ParsedHedGroup built from the matching group specification, dropping nulls. -/
def createParsedGroups (s : String) :
    List MappedTok → List GroupSpecT → List ParsedNode
  | [], _ => []
  | m :: rest, specs =>
      if m.isSub then
        let spec := specs.headD (GroupSpecT.node 0 none [])
        let bounds := (spec.start, spec.stop.getD spec.start)
        let info : GroupInfo :=
          { originalTag := jsSubstring s bounds.1 bounds.2, originalBounds := bounds }
        ParsedNode.group info (createParsedGroupChildren s m spec.children) ::
          createParsedGroups s rest (specs.drop 1)
      else
        match m.leafNode with
        | some n => n :: createParsedGroups s rest specs
        | none => createParsedGroups s rest specs
termination_by structural l _ => l

end

/-- Methods splitHedString and _splitHedString of class HedStringSplitter: tokenize,
then build parsed tags and groups; a null first component means tokenization failed
(the non-string input case is handled by the caller in this embedding). -/
def splitHedString (schemas : HedSchemasM) (reserved : ReservedCheckerM) (s : String) :
    Option (List ParsedNode) × List Issue :=
  if s = "" then (some [], [])
  else
    match HedStringTokenizer.tokenize s with
    | (tagSpecs, groupBounds, issues) =>
        if ¬ (issues = []) then (none, issues)
        else
          let (mapped, tagIssues) := createParsedTokens schemas reserved tagSpecs
          (some (createParsedGroups s mapped
            (match groupBounds with
             | some r => r.children
             | none => [])), tagIssues)

/-! ## Definition checker -/

namespace DefinitionChecker

/-- The DEF_GROUP_TAGS set. -/
def defGroupTags : List String := ["Definition", "Def-expand"]

/-- The DEFINITION_TAGS set. -/
def definitionTagNames : List String := ["Definition", "Def", "Def-expand"]

/-- Constructor field definitionTags. -/
def definitionTagsOf (ps : ParsedHedStringM) : List ParsedHedTagM :=
  ps.tags.filter (fun t => t.schemaTagName = "Definition")

/-- Constructor field defs. -/
def defsOf (ps : ParsedHedStringM) : List ParsedHedTagM :=
  ps.tags.filter (fun t => defGroupTags.contains t.schemaTagName)

/-- Method _checkDefinitionContext. -/
def checkDefinitionContext (ps : ParsedHedStringM) (allowDefinitions : Bool) :
    List Issue :=
  let definitionTags := definitionTagsOf ps
  if ¬ allowDefinitions ∧ ¬ (definitionTags = []) then
    [{ internalCode := "illegalDefinitionContext" }]
  else if ¬ (definitionTags = []) ∧ ¬ (ps.columnSplices = []) then
    [{ internalCode := "curlyBracesInDefinition" }]
  else if ¬ (ps.topLevelTags.filter
      (fun t => defGroupTags.contains t.schemaTagName) = []) then
    [{ internalCode := "missingTagGroup" }]
  else if ¬ (ps.topLevelTags = []) ∧ ¬ (definitionTags = []) then
    [{ internalCode := "illegalInExclusiveContext" }]
  else
    let numberDefinitionGroups :=
      (ps.tagGroups.filter (fun g => groupIsDefinitionGroup g.2)).length
    if 0 < numberDefinitionGroups ∧ ¬ (numberDefinitionGroups = ps.tagGroups.length) then
      [{ internalCode := "illegalInExclusiveContext" }]
    else []

/-- Method _checkGroupSyntax. -/
def checkGroupSyntax (children : List ParsedNode) (isTopGroup : Bool) : List Issue :=
  let defExpandTags := groupDefExpandTags children
  let definitionTags := groupDefinitionTags children
  if defExpandTags.length + definitionTags.length = 0 then []
  else
    match (if ¬ (definitionTags = []) then definitionTags.head? else defExpandTags.head?) with
    | none => []
    | some errorTag =>
        if errorTag.schemaTagName = "Definition" ∧ ¬ isTopGroup then
          [{ internalCode := "invalidTopLevelTagGroupTag" }]
        else if 1 < (topTagsOf children).length ∨ 1 < (topGroupsOf children).length then
          [{ internalCode := "invalidDefinitionGroupStructure" }]
        else if ¬ ((groupAllTags children).filter
            (fun t => ¬ (t = errorTag) ∧ definitionTagNames.contains t.schemaTagName) = []) then
          [{ internalCode := "invalidDefinitionForbidden" }]
        else if ¬ (defExpandTags = []) ∧ ¬ (columnSpliceIteratorList children = []) then
          [{ internalCode := "curlyBracesInDefinition" }]
        else []

end DefinitionChecker

mutual

/-- The contribution of one node to the preorder group iterator. -/
def subParsedGroupNode : ParsedNode → List (GroupInfo × List ParsedNode)
  | ParsedNode.group g ch => (g, ch) :: subGroupsPre ch
  | _ => []
termination_by structural n => n

/-- The recursion of subParsedGroupIterator over the children. -/
def subGroupsPre : List ParsedNode → List (GroupInfo × List ParsedNode)
  | [] => []
  | n :: rest => subParsedGroupNode n ++ subGroupsPre rest
termination_by structural l => l

end

/-- Method subParsedGroupIterator with no tag-name filter, flattened to a list: the
group itself followed by the contained groups in preorder. -/
def subParsedGroupList (g : GroupInfo) (children : List ParsedNode) :
    List (GroupInfo × List ParsedNode) :=
  (g, children) :: subGroupsPre children

namespace DefinitionChecker

/-- The inner loop of _checkDefinitionStructure: check each group of the iterator,
returning the first non-empty issue list; only the first group is the top group. -/
def structureWalk : List (GroupInfo × List ParsedNode) → Bool → List Issue
  | [], _ => []
  | g :: rest, isTop =>
      let issues := checkGroupSyntax g.2 isTop
      if ¬ (issues = []) then issues else structureWalk rest false

/-- The outer loop of _checkDefinitionStructure over the top-level groups. -/
def structureLoop : List (GroupInfo × List ParsedNode) → List Issue
  | [] => []
  | (g, ch) :: rest =>
      if ¬ ((groupAllTags ch).any
          (fun t => ¬ defGroupTags.contains t.schemaTagName)) then
        structureLoop rest
      else
        let issues := structureWalk (subParsedGroupList g ch) true
        if ¬ (issues = []) then issues else structureLoop rest

/-- Method _checkDefinitionStructure. -/
def checkDefinitionStructure (ps : ParsedHedStringM) : List Issue :=
  structureLoop ps.tagGroups

/-- Method check of class DefinitionChecker. -/
def check (ps : ParsedHedStringM) (allowDefinitions : Bool) : List Issue :=
  if defsOf ps = [] then []
  else
    let definitionIssues := checkDefinitionContext ps allowDefinitions
    if ¬ (definitionIssues = []) then definitionIssues
    else checkDefinitionStructure ps

end DefinitionChecker

/-! ## Reserved checker -/

namespace ReservedChecker

/-- Static method hasTopLevelTagGroupAttribute. -/
def hasTopLevelTagGroupAttribute (r : ReservedCheckerM) (tag : ParsedHedTagM) : Bool :=
  tag.schemaTagAttributes.contains "topLevelTagGroup" ||
    (match r.lookup tag.schemaTagName with
     | some req => req.topLevelTagGroup
     | none => false)

/-- Static method hasGroupAttribute. -/
def hasGroupAttribute (tag : ParsedHedTagM) : Bool :=
  tag.schemaTagAttributes.contains "tagGroup"

/-- Method checkUnique. -/
def checkUnique (ps : ParsedHedStringM) : List Issue :=
  go (ps.tags.filter (fun t => t.schemaTagAttributes.contains "unique")) []
where
  /-- The uniqueNames walk of checkUnique. -/
  go : List ParsedHedTagM → List String → List Issue
  | [], _ => []
  | t :: rest, seen =>
      if seen.contains t.schemaTagName then
        [{ internalCode := "multipleUniqueTags" }]
      else go rest (t.schemaTagName :: seen)

/-- Method checkTagGroupLevels; the forEach pushes an issue per offending tag. -/
def checkTagGroupLevels (r : ReservedCheckerM) (ps : ParsedHedStringM)
    (fullValidation : Bool) : List Issue :=
  let topGroupTags := ps.topLevelGroupTags
  ps.tags.flatMap (fun tag =>
    if topGroupTags.contains tag then []
    else if hasTopLevelTagGroupAttribute r tag ∧
        (¬ ps.topLevelTags.contains tag ∨ fullValidation) then
      [{ internalCode := "invalidTopLevelTagGroupTag" }]
    else if ps.topLevelTags.contains tag ∧ hasGroupAttribute tag ∧ fullValidation then
      [{ internalCode := "missingTagGroup" }]
    else [])

/-- The encountered-set walk of method _checkAllowedTags. -/
def allowedTagsWalk (r : ReservedCheckerM) (children : List ParsedNode)
    (allowed : List String) : List ParsedHedTagM → List String → List Issue
  | [], _ => []
  | t :: rest, seen =>
      if seen.contains t.schemaTagName then
        [{ internalCode := "tooManyGroupTopTags" }]
      else if t.schemaTagName = "Def" ∧ ¬ (groupRequiresDefTag r children = []) then
        allowedTagsWalk r children allowed rest (t.schemaTagName :: seen)
      else if ¬ (allowed.contains t.schemaTagName) then
        [{ internalCode := "invalidGroupTopTags" }]
      else allowedTagsWalk r children allowed rest (t.schemaTagName :: seen)

/-- Method _checkAllowedTags. -/
def checkAllowedTags (r : ReservedCheckerM) (children : List ParsedNode)
    (reservedTag : ParsedHedTagM) (req : ReservedTagRequirementM) : List Issue :=
  match req.otherAllowedNonDefTags with
  | none => []
  | some allowed =>
      if ¬ req.requiresDef ∧ groupRequiresDefTag r children = [] ∧
          0 < groupDefCount children then
        [{ internalCode := "tooManyGroupTopTags" }]
      else
        let otherTopTags := (topTagsOf children).filter (fun t => ¬ (t = reservedTag))
        if otherTopTags = [] then []
        else allowedTagsWalk r children allowed otherTopTags []

/-- Method _checkMinGroupCount. -/
def checkMinGroupCount (children : List ParsedNode) (minLimit : Option Nat)
    (defAdjustment : Nat) : List Issue :=
  match minLimit with
  | none => []
  | some minLimit =>
      let nonEmptyGroups :=
        ((topGroupsOf children).filter (fun sg => 0 < (groupAllTags sg.2).length)).length
      if nonEmptyGroups < minLimit + defAdjustment then
        [{ internalCode := "invalidNumberOfSubgroups" }]
      else []

/-- The defAdjustment of method _checkAllowedGroups: one when a Def-expand subgroup
fills the definition slot of a group whose reserved tag requires a definition. -/
def defAdjustmentOf (r : ReservedCheckerM) (children : List ParsedNode) : Nat :=
  if ¬ ((groupDefExpandChildren children).length = 0) ∧
      0 < (groupRequiresDefTag r children).length then 1
  else 0

/-- Method _checkAllowedGroups. -/
def checkAllowedGroups (r : ReservedCheckerM) (children : List ParsedNode)
    (req : ReservedTagRequirementM) : List Issue :=
  let defAdjustment : Nat := defAdjustmentOf r children
  let overMax : Bool :=
    match req.maxNonDefSubgroups with
    | some maxLimit => decide (((topGroupsOf children).length : Int) - defAdjustment > maxLimit)
    | none => false
  if overMax then [{ internalCode := "invalidNumberOfSubgroups" }]
  else checkMinGroupCount children req.minNonDefSubgroups defAdjustment

/-- Method _checkGroupRequirements. -/
def checkGroupRequirements (r : ReservedCheckerM) (children : List ParsedNode)
    (reservedTag : ParsedHedTagM) : List Issue :=
  if ¬ (groupRequiresDefTag r children = []) ∧ ¬ (groupDefCount children = 1) then
    [{ internalCode := "temporalWithWrongNumberDefs" }]
  else
    let req := (r.lookup reservedTag.schemaTagName).getD default
    let issues := checkAllowedTags r children reservedTag req
    if ¬ (issues = []) then issues
    else checkAllowedGroups r children req

/-- The per-group loop of checkTopGroupRequirements, which stops at the first issue
of the group. -/
def groupRequirementsLoop (r : ReservedCheckerM) (children : List ParsedNode) :
    List ParsedHedTagM → List Issue
  | [] => []
  | t :: rest =>
      let nextIssues := checkGroupRequirements r children t
      if ¬ (nextIssues = []) then nextIssues
      else groupRequirementsLoop r children rest

/-- Method checkTopGroupRequirements. -/
def checkTopGroupRequirements (r : ReservedCheckerM) (ps : ParsedHedStringM) :
    List Issue :=
  (ps.tagGroups.map (fun g =>
    groupRequirementsLoop r g.2
      (((groupReservedTags r g.2).map Prod.snd).flatten))).flatten

/-- Method checkNonTopGroups. -/
def checkNonTopGroups (ps : ParsedHedStringM) : List Issue :=
  let groupTags := ps.tags.filter
    (fun t => hasGroupAttribute t ∧ ps.topLevelTags.contains t)
  if ¬ (groupTags = []) then [{ internalCode := "missingTagGroup" }] else []

/-- Method checkHedString: run the four checks in order, returning the first
non-empty issue list. -/
def checkHedString (r : ReservedCheckerM) (ps : ParsedHedStringM)
    (fullValidation : Bool) : List Issue :=
  let c1 := checkUnique ps
  if ¬ (c1 = []) then c1
  else
    let c2 := checkTagGroupLevels r ps fullValidation
    if ¬ (c2 = []) then c2
    else
      let c3 := checkTopGroupRequirements r ps
      if ¬ (c3 = []) then c3
      else checkNonTopGroups ps

end ReservedChecker

/-! ## Parser -/

namespace HedStringParser

/-- Method _getWarnings: deprecated-tag and extended-tag warnings. -/
def getWarnings (ps : ParsedHedStringM) : List Issue :=
  let w1 : List Issue :=
    if ¬ (ps.tags.filter (fun t => t.isDeprecated) = []) then
      [{ internalCode := "deprecatedTag" }]
    else []
  let w2 : List Issue :=
    if ¬ (ps.tags.filter (fun t => t.isExtended) = []) then
      [{ internalCode := "extendedTag" }]
    else []
  w1 ++ w2

/-- Method _getPlaceholderCountIssues. -/
def getPlaceholderCountIssues (placeholdersAllowed : Bool) (checkString : String) :
    List Issue :=
  if placeholdersAllowed then []
  else if 1 < (jsSplitOnChar '#' checkString).length then
    [{ internalCode := "invalidPlaceholderContext" }]
  else []

/-- Method parse.  The input argument models the string-or-ParsedHedString union
(none being the null and undefined inputs).  The IssueError thrown by the
ParsedHedString constructor propagates out of parse as the error side of Except,
since parse does not catch it. -/
def parse (schemas? : Option HedSchemasM) (reserved : ReservedCheckerM)
    (hedStringIn : Option (String ⊕ ParsedHedStringM))
    (definitionsAllowed placeholdersAllowed fullValidation : Bool) :
    Except Issue (Option ParsedHedStringM × List Issue × List Issue) :=
  match hedStringIn with
  | none => .ok (none, [{ internalCode := "invalidTagString" }], [])
  | some hedStringImpl =>
      let checkString :=
        match hedStringImpl with
        | .inl s => s
        | .inr ps => ps.hedString
      let placeholderIssues := getPlaceholderCountIssues placeholdersAllowed checkString
      if ¬ (placeholderIssues = []) then
        .ok (none, placeholderIssues, [])
      else
        match hedStringImpl with
        | .inr ps => .ok (some ps, [], [])
        | .inl s =>
            match schemas? with
            | none => .ok (none, [{ internalCode := "missingSchemaSpecification" }], [])
            | some schemas =>
                match splitHedString schemas reserved s with
                | (none, parsingIssues) => .ok (none, parsingIssues, [])
                | (some parsedTags, parsingIssues) =>
                    if ¬ (parsingIssues = []) then
                      .ok (none, parsingIssues, [])
                    else
                      match mkParsedHedString s parsedTags with
                      | .error e => .error e
                      | .ok parsedString =>
                          let definitionIssues :=
                            DefinitionChecker.check parsedString definitionsAllowed
                          if ¬ (definitionIssues = []) then
                            .ok (none, definitionIssues, [])
                          else
                            let checkIssues :=
                              ReservedChecker.checkHedString reserved parsedString
                                fullValidation
                            if ¬ (checkIssues = []) then
                              .ok (none, checkIssues, [])
                            else
                              .ok (some parsedString, [], getWarnings parsedString)

end HedStringParser


/-! ## Concrete instances used by the theorems -/

/-- A concrete Event schema tag for the concrete runs in the theorems. -/
def eventSchemaTag : SchemaTagM :=
  { name := "Event", longName := "Event", parent := none, isValueTag := false,
    attributes := [], unitClasses := [], valueClassNames := none, valueTagIdx := none }

/-- A concrete one-tag base schema resolving the Event tag. -/
def testSchema : HedSchemaM :=
  { prefixStr := "", tags := [eventSchemaTag],
    getEntry := fun s => if s = "event" then some 0 else none,
    nameClassValidate := fun _ => false,
    valueClassValidate := fun _ _ => false,
    extractUnit := fun _ r => (none, none, r) }

/-- A schema collection holding only the base schema. -/
def testSchemas : HedSchemasM :=
  { getSchema := fun lib => if lib = "" then some testSchema else none }

/-- A reserved checker instance with an empty registry: the concrete runs in the
theorems involve no reserved tags, so the registry contents are irrelevant to
them. -/
def testReserved : ReservedCheckerM := { reservedMap := [] }

/-- The internal code of the error side of a parse result, if any. -/
def parseErrorCode (r : Except Issue (Option ParsedHedStringM × List Issue × List Issue)) :
    Option String :=
  match r with
  | .error i => some i.internalCode
  | .ok _ => none


/-! ## Definition manager -/

/-- A definition (class Definition), reduced to the fields its registry logic
reads: the name, the stored split value of the defining tag, and the memoized
normalized form of the contents group (none when there is no contents group; the
normalized form was computed when the defining string was parsed). -/
structure DefinitionM where
  name : String
  defTagSplitValue : Option String
  defContentsNormalized : Option String
deriving DecidableEq, Repr

/-- Method Definition.equivalent. -/
def DefinitionM.equivalent (d other : DefinitionM) : Bool :=
  if ¬ (d.name = other.name) ∨ ¬ (d.defTagSplitValue = other.defTagSplitValue) then
    false
  else if ¬ (d.defContentsNormalized = other.defContentsNormalized) then
    false
  else true

/-- The definitions registry of class DefinitionManager: a Map keyed by lower-cased
definition name. -/
abbrev DefRegistry : Type := List (String × DefinitionM)

/-- JavaScript Map.get on the registry. -/
def DefRegistry.get (m : DefRegistry) (k : String) : Option DefinitionM :=
  (List.find? (fun p => p.1 = k) m).map Prod.snd

/-- JavaScript Map.set on the registry (insertion order preserved). -/
def DefRegistry.set (m : DefRegistry) (k : String) (v : DefinitionM) : DefRegistry :=
  if (List.find? (fun p => p.1 = k) m).isSome then
    List.map (fun p => if p.1 = k then (k, v) else p) m
  else m ++ [(k, v)]

/-- Method DefinitionManager.addDefinition, returning the issues and the updated
registry. -/
def addDefinition (definitions : DefRegistry) (definition : DefinitionM) :
    List Issue × DefRegistry :=
  let lowerName := jsToLower definition.name
  match DefRegistry.get definitions lowerName with
  | some existingDefinition =>
      if ¬ (existingDefinition.equivalent definition = true) then
        ([{ internalCode := "conflictingDefinitions" }], definitions)
      else ([], definitions)
  | none => ([], DefRegistry.set definitions lowerName definition)

/-! ## Event manager -/

/-- A temporal event (class Event), reduced to the fields validate reads; the onset
time is a JavaScript number, modeled as an exact rational. -/
structure EventM where
  defName : String
  type : String
  onset : ℚ
deriving DecidableEq, Repr

/-- The static TOLERANCE constant of class EventManager. -/
def TOLERANCE : ℚ := 1 / 10000000

/-- JavaScript Map.get on the currentMap of validate. -/
def eventMapGet (m : List (String × EventM)) (k : String) : Option EventM :=
  (List.find? (fun p => p.1 = k) m).map Prod.snd

/-- JavaScript Map.set on the currentMap of validate. -/
def eventMapSet (m : List (String × EventM)) (k : String) (v : EventM) :
    List (String × EventM) :=
  if (List.find? (fun p => p.1 = k) m).isSome then
    List.map (fun p => if p.1 = k then (k, v) else p) m
  else m ++ [(k, v)]

/-- Method EventManager._resolveConflicts, returning the issues and the updated
currentMap (the none branch is unreachable because validate checks membership
first). -/
def resolveConflicts (currentMap : List (String × EventM)) (event : EventM) :
    List Issue × List (String × EventM) :=
  match eventMapGet currentMap event.defName with
  | none => ([], currentMap)
  | some currentEvent =>
      if |currentEvent.onset - event.onset| < TOLERANCE then
        ([{ internalCode := "simultaneousDuplicateEvents" }], currentMap)
      else if event.type = "Onset" then
        ([], eventMapSet currentMap event.defName event)
      else if event.type = "Inset" ∧ ¬ (currentEvent.type = "Offset") then
        ([], eventMapSet currentMap event.defName event)
      else if event.type = "Offset" ∧ ¬ (currentEvent.type = "Offset") then
        ([], eventMapSet currentMap event.defName event)
      else ([], currentMap)

/-- The walk of method EventManager.validate over the event list. -/
def validateGo (currentMap : List (String × EventM)) : List EventM → List Issue
  | [] => []
  | event :: rest =>
      match eventMapGet currentMap event.defName with
      | none =>
          if event.type = "Offset" ∨ event.type = "Inset" then
            [{ internalCode := "inactiveOnset" }]
          else validateGo (eventMapSet currentMap event.defName event) rest
      | some _ =>
          match resolveConflicts currentMap event with
          | ([], newMap) => validateGo newMap rest
          | (issues, _) => issues

/-- Method EventManager.validate. -/
def validate (eventList : List EventM) : List Issue :=
  validateGo [] eventList

/-- Sortedness by effective onset time, the precondition parseEvents establishes
before validate runs. -/
def sortedByOnset (l : List EventM) : Prop :=
  l.Pairwise (fun a b => a.onset ≤ b.onset)

/-- The flagging condition of claim C6 as stated: some consecutive pair of events
with the same definition name has onset difference strictly below TOLERANCE. -/
def hasCloseConsecutiveSameDefPair : List EventM → Bool
  | a :: b :: rest =>
      (decide (a.defName = b.defName) && decide (|a.onset - b.onset| < TOLERANCE)) ||
        hasCloseConsecutiveSameDefPair (b :: rest)
  | _ => false

/-! ## Concrete fixtures used by the theorems -/

/-- Witness tag with normalized form A for the normalization theorems. -/
def tagLitA : ParsedHedTagM :=
  { originalTag := "A", originalBounds := (0, 1), library := "",
    schemaPrefixStr := "", schemaTagIdxRaw := 0, schemaTagName := "A",
    schemaTagAttributes := [], isValueTagResolved := false, remainder := "",
    canonicalTag := "A", formattedTag := "a", value := none, splitValue := none,
    units := none, isDeprecated := false, isExtended := false, normalized := "A" }

/-- Witness tag with normalized form B for the normalization theorems. -/
def tagLitB : ParsedHedTagM :=
  { tagLitA with
      originalTag := "B", schemaTagName := "B", canonicalTag := "B",
      formattedTag := "b", normalized := "B" }

/-- The spec event list [Onset at 0, Offset at 5, Onset at 5.0000001] for one
definition, with 5.0000001 as the exact rational. -/
def c6ExampleClean : List EventM :=
  [ { defName := "a", type := "Onset", onset := 0 },
    { defName := "a", type := "Offset", onset := 5 },
    { defName := "a", type := "Onset", onset := 50000001 / 10000000 } ]

/-- The spec event list [Onset at 2, Onset at 2] for one definition. -/
def c6ExampleDup : List EventM :=
  [ { defName := "a", type := "Onset", onset := 2 },
    { defName := "a", type := "Onset", onset := 2 } ]

/-- The C6 counterexample list: an Offset that follows an Offset is not recorded,
so the final Onset is compared against the earlier event instead of its consecutive
predecessor. -/
def c6CounterexampleEvents : List EventM :=
  [ { defName := "a", type := "Onset", onset := 0 },
    { defName := "a", type := "Offset", onset := 1 },
    { defName := "a", type := "Offset", onset := 2 },
    { defName := "a", type := "Onset", onset := 2 } ]

/-- A concrete event for the C6 witness. -/
def c6Ev2 : EventM := { defName := "a", type := "Onset", onset := 2 }

/-- A concrete definition for the C4 witness. -/
def defLitFoo : DefinitionM :=
  { name := "Foo", defTagSplitValue := some "", defContentsNormalized := some "(Event)" }

/-- A conflicting definition of the same name for the C4 witness. -/
def defLitFooConflict : DefinitionM :=
  { name := "Foo", defTagSplitValue := some "", defContentsNormalized := some "(Other)" }

/-- The C7 counterexample group children: a single subgroup holding only a column
splice, so the subgroup count is one while no subgroup contains a tag. -/
def c7GroupChildren : List ParsedNode :=
  [ParsedNode.group { originalTag := "({x})", originalBounds := (1, 6) }
    [ParsedNode.splice { originalTag := "x", originalBounds := (2, 5) }]]

/-- A reserved tag requirement record declaring exactly one non-definition
subgroup. -/
def c7Requirements : ReservedTagRequirementM :=
  { name := "Reserved", noExtension := false, requireValue := false,
    topLevelTagGroup := true, maxNonDefSubgroups := some 1,
    minNonDefSubgroups := some 1, requiresDef := false, requiresTimeline := false,
    otherAllowedNonDefTags := some [] }

/-- A value-taking schema tag with a declared (always rejecting, under testSchema)
value class, for the C8 witness. -/
def valueTagLit : SchemaTagM :=
  { name := "#", longName := "Label/#", parent := some 0, isValueTag := true,
    attributes := [], unitClasses := [], valueClassNames := some ["textClass"],
    valueTagIdx := none }

end HedModel

namespace HedModel

/-! ## Theorems -/

/-- C3: for every input string, tokenize either succeeds with an empty issue list, or
fails returning an empty token forest, a null root group spec and a non-empty issue
list; moreover the scan stops at the first character whose handling produces an
issue, so no tokens are ever returned alongside issues. -/
theorem c3_tokenize_all_or_nothing :
    (∀ s : String,
      (∃ forest root, HedStringTokenizer.tokenize s = (forest, root, [])) ∨
      (∃ issues, HedStringTokenizer.tokenize s = ([], none, issues) ∧ issues ≠ [])) ∧
    (∀ (s : String) (st : TokenizerState) (i : Nat) (c : Char) (rest : List Char),
      (HedStringTokenizer.handleCharacter s st i c).issues ≠ [] →
      HedStringTokenizer.scan s st i (c :: rest) =
        HedStringTokenizer.handleCharacter s st i c) := by
  constructor
  · intro s
    simp only [HedStringTokenizer.tokenize]
    split
    · exact Or.inr ⟨_, rfl, by simp⟩
    · split
      · rename_i h2
        exact Or.inr ⟨_, rfl, List.length_pos.mp h2⟩
      · split
        · rename_i h3
          exact Or.inr ⟨_, rfl, List.length_pos.mp h3⟩
        · exact Or.inl ⟨_, _, rfl⟩
  · intro s st i c rest h
    simp only [HedStringTokenizer.scan]
    simp [List.length_pos.mpr h]

/-- Witness for the second part of the C3 theorem at a concrete input: handling the
unmatched closing parenthesis of the string consisting of one closing parenthesis
produces an issue, and the scan stops right there. -/
theorem c3_witness :
    (HedStringTokenizer.handleCharacter ")" TokenizerState.initial 0 ')').issues ≠ [] ∧
    HedStringTokenizer.scan ")" TokenizerState.initial 0 [')'] =
      HedStringTokenizer.handleCharacter ")" TokenizerState.initial 0 ')' := by
  refine ⟨by decide, c3_tokenize_all_or_nothing.2 ")" _ 0 ')' [] (by decide)⟩


/-- The cons characterization of the lexicographic comparison. -/
theorem strLeGo_cons_iff {x y : Char} {xs ys : List Char} :
    strLeGo (x :: xs) (y :: ys) = true ↔
      x.toNat < y.toNat ∨ (x.toNat = y.toNat ∧ strLeGo xs ys = true) := by
  rcases Nat.lt_trichotomy x.toNat y.toNat with h | h | h
  · simp [strLeGo, h]
  · simp [strLeGo, h, Nat.lt_irrefl]
  · have h2 : ¬ x.toNat < y.toNat := by omega
    have h3 : x.toNat ≠ y.toNat := by omega
    simp [strLeGo, h, h2, h3]

/-- Totality of the lexicographic comparison. -/
theorem strLeGo_total : ∀ a b : List Char, strLeGo a b = true ∨ strLeGo b a = true
  | [], _ => Or.inl rfl
  | _ :: _, [] => Or.inr rfl
  | x :: xs, y :: ys => by
      rcases Nat.lt_trichotomy x.toNat y.toNat with h | h | h
      · exact Or.inl (strLeGo_cons_iff.mpr (Or.inl h))
      · rcases strLeGo_total xs ys with ht | ht
        · exact Or.inl (strLeGo_cons_iff.mpr (Or.inr ⟨h, ht⟩))
        · exact Or.inr (strLeGo_cons_iff.mpr (Or.inr ⟨h.symm, ht⟩))
      · exact Or.inr (strLeGo_cons_iff.mpr (Or.inl h))

/-- Transitivity of the lexicographic comparison. -/
theorem strLeGo_trans : ∀ a b c : List Char, strLeGo a b = true → strLeGo b c = true →
    strLeGo a c = true
  | [], _, _, _, _ => rfl
  | x :: xs, [], _, h1, _ => by simp [strLeGo] at h1
  | _ :: _, _ :: _, [], _, h2 => by simp [strLeGo] at h2
  | x :: xs, y :: ys, z :: zs, h1, h2 => by
      rcases strLeGo_cons_iff.mp h1 with hlt | ⟨heq, ht⟩ <;>
        rcases strLeGo_cons_iff.mp h2 with hlt2 | ⟨heq2, ht2⟩
      · exact strLeGo_cons_iff.mpr (Or.inl (by omega))
      · exact strLeGo_cons_iff.mpr (Or.inl (by omega))
      · exact strLeGo_cons_iff.mpr (Or.inl (by omega))
      · exact strLeGo_cons_iff.mpr (Or.inr ⟨by omega, strLeGo_trans xs ys zs ht ht2⟩)

/-- Antisymmetry of the lexicographic comparison. -/
theorem strLeGo_antisymm : ∀ a b : List Char, strLeGo a b = true → strLeGo b a = true →
    a = b
  | [], [], _, _ => rfl
  | [], _ :: _, _, h2 => by simp [strLeGo] at h2
  | _ :: _, [], h1, _ => by simp [strLeGo] at h1
  | x :: xs, y :: ys, h1, h2 => by
      rcases strLeGo_cons_iff.mp h1 with hlt | ⟨heq, ht⟩ <;>
        rcases strLeGo_cons_iff.mp h2 with hlt2 | ⟨heq2, ht2⟩
      · omega
      · omega
      · omega
      · have hx : x = y := Char.ext (UInt32.toNat.inj heq)
        rw [hx, strLeGo_antisymm xs ys ht ht2]

/-- The sort model permutes its input. -/
theorem jsSortStrings_perm (l : List String) : (jsSortStrings l).Perm l :=
  List.perm_insertionSort strLeR l

/-- The sort model sorts its input. -/
theorem jsSortStrings_sorted (l : List String) : List.Sorted strLeR (jsSortStrings l) := by
  haveI : IsTotal String strLeR := ⟨fun a b => strLeGo_total a.data b.data⟩
  haveI : IsTrans String strLeR := ⟨fun a b c => strLeGo_trans a.data b.data c.data⟩
  exact List.sorted_insertionSort strLeR l

/-- Sorting is a function of the multiset of items. -/
theorem jsSortStrings_eq_of_perm {l₁ l₂ : List String} (h : l₁.Perm l₂) :
    jsSortStrings l₁ = jsSortStrings l₂ := by
  haveI : IsAntisymm String strLeR := by
    constructor
    intro a b h1 h2
    have h3 := strLeGo_antisymm a.data b.data h1 h2
    cases a
    cases b
    exact congrArg String.mk h3
  exact List.eq_of_perm_of_sorted
    ((jsSortStrings_perm l₁).trans (h.trans (jsSortStrings_perm l₂).symm))
    (jsSortStrings_sorted l₁) (jsSortStrings_sorted l₂)

/-- Sorting is idempotent. -/
theorem jsSortStrings_idem (l : List String) :
    jsSortStrings (jsSortStrings l) = jsSortStrings l :=
  List.Sorted.insertionSort_eq (jsSortStrings_sorted l)

/-- The accumulator characterization of getDuplicates returning no duplicates. -/
theorem getDuplicates_go_eq_nil (l : List String) :
    ∀ (seen dups : List String),
      getDuplicates.go l seen dups = [] ↔
        (dups = [] ∧ l.Nodup ∧ ∀ x ∈ l, x ∉ seen) := by
  induction l with
  | nil =>
      intro seen dups
      simp [getDuplicates.go]
  | cons x rest ih =>
      intro seen dups
      by_cases hs : seen.contains x
      · have hmem : x ∈ seen := by simpa using hs
        by_cases hd : dups.contains x
        · rw [getDuplicates.go, if_pos hs, if_pos hd, ih]
          have hne : dups ≠ [] := fun hnil => by simp [hnil] at hd
          constructor
          · rintro ⟨h1, -⟩
            exact absurd h1 hne
          · rintro ⟨h1, -⟩
            exact absurd h1 hne
        · rw [getDuplicates.go, if_pos hs, if_neg hd, ih]
          constructor
          · rintro ⟨h1, -⟩
            cases h1
          · rintro ⟨-, -, h3⟩
            exact absurd hmem (h3 x (List.mem_cons_self x rest))
      · have hmem : x ∉ seen := by simpa using hs
        rw [getDuplicates.go, if_neg hs, ih]
        simp only [List.nodup_cons, List.mem_cons]
        constructor
        · rintro ⟨h1, h2, h3⟩
          refine ⟨h1, ⟨?_, h2⟩, ?_⟩
          · intro hx
            exact h3 x hx (Or.inl rfl)
          · rintro y (rfl | hy)
            · exact hmem
            · have hcon := h3 y hy
              push_neg at hcon
              exact hcon.2
        · rintro ⟨h1, ⟨hx, h2⟩, h3⟩
          refine ⟨h1, h2, ?_⟩
          intro y hy
          push_neg
          exact ⟨fun he => hx (he ▸ hy), h3 y (Or.inr hy)⟩

/-- getDuplicates is empty exactly on duplicate-free lists. -/
theorem getDuplicates_eq_nil_iff (l : List String) :
    getDuplicates l = [] ↔ l.Nodup := by
  rw [getDuplicates, getDuplicates_go_eq_nil]
  simp

mutual

/-- Any error produced by the normalized getter is the duplicateTag issue. -/
theorem normalized_error_eq :
    ∀ (n : ParsedNode) (e : Issue), n.normalized = .error e → e = duplicateTagIssue
  | .tag t, e, h => by simp [ParsedNode.normalized] at h
  | .splice c, e, h => by simp [ParsedNode.normalized] at h
  | .group g children, e, h => by
      rw [ParsedNode.normalized] at h
      cases hl : normalizedList children with
      | error e2 =>
          rw [hl] at h
          injection h with h2
          exact h2 ▸ normalizedList_error_eq children e2 hl
      | ok items =>
          rw [hl] at h
          by_cases hd : getDuplicates (jsSortStrings items) = []
          · simp [hd] at h
          · simp only [hd, not_false_iff, if_pos] at h
            injection h with h2
            exact h2.symm

/-- Any error produced by normalizedList is the duplicateTag issue. -/
theorem normalizedList_error_eq :
    ∀ (l : List ParsedNode) (e : Issue), normalizedList l = .error e →
      e = duplicateTagIssue
  | [], e, h => by simp [normalizedList] at h
  | n :: rest, e, h => by
      rw [normalizedList] at h
      cases hn : n.normalized with
      | error e2 =>
          rw [hn] at h
          injection h with h2
          exact h2 ▸ normalized_error_eq n e2 hn
      | ok s =>
          rw [hn] at h
          cases hr : normalizedList rest with
          | error e2 =>
              rw [hr] at h
              injection h with h2
              exact h2 ▸ normalizedList_error_eq rest e2 hr
          | ok others =>
              rw [hr] at h
              simp at h

end

/-- Over permuted sibling lists, normalizedList returns permuted value lists, or
fails on both with the duplicateTag issue. -/
theorem normalizedList_perm {l₁ l₂ : List ParsedNode} (h : l₁.Perm l₂) :
    (∃ v₁ v₂, normalizedList l₁ = .ok v₁ ∧ normalizedList l₂ = .ok v₂ ∧ v₁.Perm v₂) ∨
    (normalizedList l₁ = .error duplicateTagIssue ∧
      normalizedList l₂ = .error duplicateTagIssue) := by
  induction h with
  | nil => exact Or.inl ⟨[], [], rfl, rfl, List.Perm.nil⟩
  | cons x h ih =>
      cases hx : x.normalized with
      | error e =>
          have he := normalized_error_eq x e hx
          subst he
          right
          constructor <;> rw [normalizedList, hx]
      | ok s =>
          rcases ih with ⟨v₁, v₂, h1, h2, hp⟩ | ⟨h1, h2⟩
          · exact Or.inl ⟨s :: v₁, s :: v₂, by rw [normalizedList, hx, h1],
              by rw [normalizedList, hx, h2], hp.cons s⟩
          · exact Or.inr ⟨by rw [normalizedList, hx, h1], by rw [normalizedList, hx, h2]⟩
  | swap x y l =>
      cases hx : x.normalized with
      | error ex =>
          have hex := normalized_error_eq x ex hx
          subst hex
          cases hy : y.normalized with
          | error ey =>
              have hey := normalized_error_eq y ey hy
              subst hey
              exact Or.inr ⟨by rw [normalizedList, hy], by rw [normalizedList, hx]⟩
          | ok sy =>
              refine Or.inr ⟨?_, by rw [normalizedList, hx]⟩
              rw [normalizedList, hy, normalizedList, hx]
      | ok sx =>
          cases hy : y.normalized with
          | error ey =>
              have hey := normalized_error_eq y ey hy
              subst hey
              refine Or.inr ⟨by rw [normalizedList, hy], ?_⟩
              rw [normalizedList, hx, normalizedList, hy]
          | ok sy =>
              cases hl : normalizedList l with
              | error el =>
                  have hel := normalizedList_error_eq l el hl
                  subst hel
                  refine Or.inr ⟨?_, ?_⟩
                  · rw [normalizedList, hy, normalizedList, hx, hl]
                  · rw [normalizedList, hx, normalizedList, hy, hl]
              | ok vl =>
                  refine Or.inl ⟨sy :: sx :: vl, sx :: sy :: vl, ?_, ?_,
                    List.Perm.swap sx sy vl⟩
                  · rw [normalizedList, hy, normalizedList, hx, hl]
                  · rw [normalizedList, hx, normalizedList, hy, hl]
  | trans h12 h23 ih1 ih2 =>
      rcases ih1 with ⟨v₁, v₂, h1, h2, hp⟩ | ⟨h1, h2⟩ <;>
        rcases ih2 with ⟨w₂, w₃, g2, g3, hq⟩ | ⟨g2, g3⟩
      · rw [h2] at g2
        injection g2 with gv
        exact Or.inl ⟨v₁, w₃, h1, g3, (gv ▸ hp).trans hq⟩
      · rw [h2] at g2
        cases g2
      · rw [g2] at h2
        cases h2
      · exact Or.inr ⟨h1, g3⟩

/-- C2: the normalized form built by ParsedHedString._getNormalized and by
ParsedHedGroup.normalized does not depend on the order of the children at a level,
and recomputing the normal form of an already-normalized level (one whose items
normalize to the sorted normal forms) yields the same string. -/
theorem c2_normalization_order_independent_and_idempotent :
    (∀ (l₁ l₂ : List ParsedNode), l₁.Perm l₂ →
      getNormalizedString l₁ = getNormalizedString l₂ ∧
      ∀ g₁ g₂ : GroupInfo,
        ParsedNode.normalized (.group g₁ l₁) = ParsedNode.normalized (.group g₂ l₂)) ∧
    (∀ (l lNorm : List ParsedNode) (norms : List String) (out : String),
      normalizedList l = .ok norms →
      getNormalizedString l = .ok out →
      normalizedList lNorm = .ok (jsSortStrings norms) →
      getNormalizedString lNorm = .ok out) := by
  constructor
  · intro l₁ l₂ h
    rcases normalizedList_perm h with ⟨v₁, v₂, h1, h2, hp⟩ | ⟨h1, h2⟩
    · have hs : jsSortStrings v₁ = jsSortStrings v₂ := jsSortStrings_eq_of_perm hp
      constructor
      · simp only [getNormalizedString, h1, h2, hs]
      · intro g₁ g₂
        simp only [ParsedNode.normalized, h1, h2, hs]
    · constructor
      · simp only [getNormalizedString, h1, h2]
      · intro g₁ g₂
        simp only [ParsedNode.normalized, h1, h2]
  · intro l lNorm norms out h1 h2 h3
    simp only [getNormalizedString, h1] at h2
    simp only [getNormalizedString, h3, jsSortStrings_idem]
    by_cases hd : getDuplicates (jsSortStrings norms) = []
    · simpa [hd] using h2
    · simp [hd] at h2

/-- Witness for C2 at two concrete distinct tags: the two orders of A and B
normalize to the same string, and renormalizing the sorted pair reproduces it. -/
theorem c2_witness :
    getNormalizedString [ParsedNode.tag tagLitA, ParsedNode.tag tagLitB] =
      getNormalizedString [ParsedNode.tag tagLitB, ParsedNode.tag tagLitA] ∧
    getNormalizedString [ParsedNode.tag tagLitA, ParsedNode.tag tagLitB] =
      .ok "A,B" := by
  constructor
  · exact (c2_normalization_order_independent_and_idempotent.1
      [ParsedNode.tag tagLitA, ParsedNode.tag tagLitB]
      [ParsedNode.tag tagLitB, ParsedNode.tag tagLitA]
      (List.Perm.swap (ParsedNode.tag tagLitB) (ParsedNode.tag tagLitA) [])).1
  · exact c2_normalization_order_independent_and_idempotent.2
      [ParsedNode.tag tagLitB, ParsedNode.tag tagLitA]
      [ParsedNode.tag tagLitA, ParsedNode.tag tagLitB] ["B", "A"] "A,B"
      rfl rfl rfl


/-- The ParsedHedString constructor throws the duplicateTag IssueError whenever two
items at the top level normalize to the same string. -/
theorem mkParsedHedString_error_of_dup {s : String} {parsedTags : List ParsedNode}
    {norms : List String} (hl : normalizedList parsedTags = .ok norms)
    (hdup : ¬ norms.Nodup) :
    mkParsedHedString s parsedTags = .error duplicateTagIssue := by
  have hd : ¬ (getDuplicates (jsSortStrings norms) = []) := by
    rw [getDuplicates_eq_nil_iff]
    intro hnd
    exact hdup ((jsSortStrings_perm norms).nodup hnd)
  simp only [mkParsedHedString, getNormalizedString, hl]
  simp [hd]

/-- C1 counterexample: on the two duplicate inputs of the claim, parse does not
return an issue list at all; the duplicateTag IssueError thrown while constructing
the ParsedHedString escapes parse uncaught (the error side of Except), so no tuple
with the duplicate-tag code among returned errors exists. -/
theorem c1_counterexample :
    (¬ ∃ errs warns, HedStringParser.parse (some testSchemas) testReserved
        (some (.inl "Event,Event")) false false true = .ok (none, errs, warns) ∧
        "duplicateTag" ∈ errs.map Issue.internalCode) ∧
    parseErrorCode (HedStringParser.parse (some testSchemas) testReserved
        (some (.inl "Event,Event")) false false true) = some "duplicateTag" ∧
    (¬ ∃ errs warns, HedStringParser.parse (some testSchemas) testReserved
        (some (.inl "(Event),(Event)")) false false true = .ok (none, errs, warns) ∧
        "duplicateTag" ∈ errs.map Issue.internalCode) ∧
    parseErrorCode (HedStringParser.parse (some testSchemas) testReserved
        (some (.inl "(Event),(Event)")) false false true) = some "duplicateTag" := by
  refine ⟨?_, rfl, ?_, rfl⟩
  · rintro ⟨errs, warns, h, -⟩
    rw [show HedStringParser.parse (some testSchemas) testReserved
        (some (.inl "Event,Event")) false false true = .error duplicateTagIssue
      from rfl] at h
    cases h
  · rintro ⟨errs, warns, h, -⟩
    rw [show HedStringParser.parse (some testSchemas) testReserved
        (some (.inl "(Event),(Event)")) false false true = .error duplicateTagIssue
      from rfl] at h
    cases h

/-- C1 amended: whenever splitting succeeds with no issues, the placeholder check
passes, and two items at the top level of the resulting tree normalize to the same
string, parse raises the duplicateTag IssueError, which escapes parse uncaught (its
callers convert it to the duplicate-tag issue); no parsed string is produced. -/
theorem c1_duplicate_throws_issue_error
    (schemas : HedSchemasM) (reserved : ReservedCheckerM) (s : String)
    (definitionsAllowed placeholdersAllowed fullValidation : Bool)
    (parsedTags : List ParsedNode) (norms : List String)
    (hph : HedStringParser.getPlaceholderCountIssues placeholdersAllowed s = [])
    (hsplit : splitHedString schemas reserved s = (some parsedTags, []))
    (hl : normalizedList parsedTags = .ok norms)
    (hdup : ¬ norms.Nodup) :
    HedStringParser.parse (some schemas) reserved (some (.inl s))
      definitionsAllowed placeholdersAllowed fullValidation =
      .error duplicateTagIssue := by
  have hmk := mkParsedHedString_error_of_dup (s := s) hl hdup
  simp only [HedStringParser.parse, hph, hsplit, hmk]
  simp

/-- Witness for the amended C1 theorem at the concrete input of the claim. -/
theorem c1_witness :
    HedStringParser.parse (some testSchemas) testReserved
      (some (.inl "Event,Event")) false false true = .error duplicateTagIssue :=
  c1_duplicate_throws_issue_error testSchemas testReserved "Event,Event"
    false false true _ _ rfl rfl rfl (by decide)

/-- C10: parsing the empty string with a valid schema collection succeeds with an
empty parse tree and no errors or warnings, because the splitter returns an empty
tag list for the empty string without invoking the tokenizer, even though tokenize
reports an empty-tag issue at index 0 on the empty (or whitespace-only) string. -/
theorem c10_empty_string_parse :
    (∃ ps, HedStringParser.parse (some testSchemas) testReserved
        (some (.inl "")) false false true = .ok (some ps, [], []) ∧
        ps.parseTree = [] ∧ ps.normalized = "") ∧
    splitHedString testSchemas testReserved "" = (some [], []) ∧
    HedStringTokenizer.tokenize "" =
      ([], none, [{ internalCode := "emptyTagFound", index := some 0 }]) ∧
    HedStringTokenizer.tokenize " " =
      ([], none, [{ internalCode := "emptyTagFound", index := some 0 }]) := by
  exact ⟨⟨_, rfl, rfl, rfl⟩, rfl, rfl, rfl⟩

/-! ## C4: definition registry conflicts -/

/-- C4: DefinitionManager.addDefinition with a definition whose lower-cased name
matches an existing registry entry returns no issues and leaves the registry
holding the first definition when the two definitions are equivalent, and returns
a conflictingDefinitions issue while leaving the registry unchanged when they are
not; the registry key is the lower-cased name, so names are compared
case-insensitively. -/
theorem c4_add_definition_conflicts
    (definitions : DefRegistry) (d existing : DefinitionM)
    (hget : DefRegistry.get definitions (jsToLower d.name) = some existing) :
    (existing.equivalent d = true →
      addDefinition definitions d = ([], definitions) ∧
      DefRegistry.get (addDefinition definitions d).2 (jsToLower d.name) =
        some existing) ∧
    (existing.equivalent d = false →
      addDefinition definitions d =
        ([{ internalCode := "conflictingDefinitions" }], definitions)) := by
  constructor
  · intro heq
    have h1 : addDefinition definitions d = ([], definitions) := by
      simp [addDefinition, hget, heq]
    exact ⟨h1, by rw [h1]; exact hget⟩
  · intro hne
    simp [addDefinition, hget, hne]

/-- Witness for C4 at a concrete registry: re-adding an equivalent definition is
accepted and keeps the first entry; adding a conflicting one of the same name is
rejected with the registry unchanged. -/
theorem c4_witness :
    (addDefinition [("foo", defLitFoo)] defLitFoo = ([], [("foo", defLitFoo)]) ∧
      DefRegistry.get (addDefinition [("foo", defLitFoo)] defLitFoo).2
        (jsToLower defLitFoo.name) = some defLitFoo) ∧
    addDefinition [("foo", defLitFoo)] defLitFooConflict =
      ([{ internalCode := "conflictingDefinitions" }], [("foo", defLitFoo)]) :=
  ⟨(c4_add_definition_conflicts [("foo", defLitFoo)] defLitFoo defLitFoo
      rfl).1 rfl,
    (c4_add_definition_conflicts [("foo", defLitFoo)] defLitFooConflict defLitFoo
      rfl).2 rfl⟩

/-! ## C5: inactive onsets and short-circuiting -/

/-- _resolveConflicts returns at most one issue. -/
theorem resolveConflicts_fst_length (m : List (String × EventM)) (e : EventM) :
    (resolveConflicts m e).1.length ≤ 1 := by
  unfold resolveConflicts
  cases eventMapGet m e.defName
  · simp
  · simp only
    split_ifs <;> simp

/-- The validate walk returns at most one issue from any starting map. -/
theorem validateGo_length (l : List EventM) :
    ∀ m, (validateGo m l).length ≤ 1 := by
  induction l with
  | nil => intro m; simp [validateGo]
  | cons e rest ih =>
      intro m
      rw [validateGo]
      cases hget : eventMapGet m e.defName with
      | none =>
          split_ifs with h
          · simp
          · exact ih _
      | some cur =>
          rcases hrc : resolveConflicts m e with ⟨issues, newMap⟩
          cases issues with
          | nil => exact ih newMap
          | cons i tl =>
              have hlen := resolveConflicts_fst_length m e
              rw [hrc] at hlen
              simpa using hlen

/-- C5: on any event list sorted by onset, validate returns at most one issue
(short-circuiting at the first violation); and whenever the walk reaches an Inset
or Offset event whose definition name has no currently active event, it returns
exactly the single inactiveOnset issue. -/
theorem c5_inactive_onset_short_circuit :
    (∀ (l : List EventM), sortedByOnset l → (validate l).length ≤ 1) ∧
    (∀ (m : List (String × EventM)) (e : EventM) (rest : List EventM),
      eventMapGet m e.defName = none →
      e.type = "Offset" ∨ e.type = "Inset" →
      validateGo m (e :: rest) = [{ internalCode := "inactiveOnset" }]) := by
  constructor
  · intro l _
    exact validateGo_length l []
  · intro m e rest hget htyp
    rw [validateGo, hget]
    rw [if_pos htyp]

/-- Witness for C5 at the spec example: a lone Offset event with no preceding
Onset yields exactly the inactiveOnset issue. -/
theorem c5_witness :
    (validate [{ defName := "b", type := "Offset", onset := 3 }]).length ≤ 1 ∧
    validateGo [] [{ defName := "b", type := "Offset", onset := 3 }] =
      [{ internalCode := "inactiveOnset" }] :=
  ⟨c5_inactive_onset_short_circuit.1 _ (by simp [sortedByOnset]),
    c5_inactive_onset_short_circuit.2 [] _ [] rfl (Or.inl rfl)⟩

/-! ## C6: simultaneity tolerance -/

/-- Unfolding of _resolveConflicts when the definition has a tracked current
event. -/
theorem resolveConflicts_eq (m : List (String × EventM)) (e cur : EventM)
    (hget : eventMapGet m e.defName = some cur) :
    resolveConflicts m e =
      if |cur.onset - e.onset| < TOLERANCE then
        ([{ internalCode := "simultaneousDuplicateEvents" }], m)
      else if e.type = "Onset" then ([], eventMapSet m e.defName e)
      else if e.type = "Inset" ∧ ¬ (cur.type = "Offset") then
        ([], eventMapSet m e.defName e)
      else if e.type = "Offset" ∧ ¬ (cur.type = "Offset") then
        ([], eventMapSet m e.defName e)
      else ([], m) := by
  unfold resolveConflicts
  rw [hget]

/-- One conflict-free step of the validate walk on a tracked definition. -/
theorem validateGo_cons_some (m : List (String × EventM)) (e : EventM)
    (rest : List EventM) (cur : EventM) (newMap : List (String × EventM))
    (hget : eventMapGet m e.defName = some cur)
    (hrc : resolveConflicts m e = ([], newMap)) :
    validateGo m (e :: rest) = validateGo newMap rest := by
  rw [validateGo, hget, hrc]

/-- C6 counterexample: the sorted events [Onset at 0, Offset at 1, Offset at 2,
Onset at 2] for one definition contain a consecutive same-definition pair with
onset difference 0 < TOLERANCE, yet validate returns no issues: an Offset
following an Offset is not recorded as the current event, so the final Onset is
compared against the Offset at 1 instead of its consecutive predecessor. -/
theorem c6_counterexample :
    validate c6CounterexampleEvents = [] ∧
    hasCloseConsecutiveSameDefPair c6CounterexampleEvents = true ∧
    sortedByOnset c6CounterexampleEvents := by
  have h01 : ¬ (|(0 : ℚ) - 1| < TOLERANCE) := by
    rw [abs_of_nonpos (by norm_num)]
    norm_num [TOLERANCE]
  have h12 : ¬ (|(1 : ℚ) - 2| < TOLERANCE) := by
    rw [abs_of_nonpos (by norm_num)]
    norm_num [TOLERANCE]
  have h22 : |(2 : ℚ) - 2| < TOLERANCE := by
    norm_num [TOLERANCE]
  refine ⟨?_, ?_, ?_⟩
  · have hrc2 : resolveConflicts [("a", ⟨"a", "Onset", 0⟩)] ⟨"a", "Offset", 1⟩ =
        ([], [("a", ⟨"a", "Offset", 1⟩)]) := by
      rw [resolveConflicts_eq [("a", ⟨"a", "Onset", 0⟩)] ⟨"a", "Offset", 1⟩
        ⟨"a", "Onset", 0⟩ rfl, if_neg h01]
      rfl
    have hrc3 : resolveConflicts [("a", ⟨"a", "Offset", 1⟩)] ⟨"a", "Offset", 2⟩ =
        ([], [("a", ⟨"a", "Offset", 1⟩)]) := by
      rw [resolveConflicts_eq [("a", ⟨"a", "Offset", 1⟩)] ⟨"a", "Offset", 2⟩
        ⟨"a", "Offset", 1⟩ rfl, if_neg h12]
      rfl
    have hrc4 : resolveConflicts [("a", ⟨"a", "Offset", 1⟩)] ⟨"a", "Onset", 2⟩ =
        ([], [("a", ⟨"a", "Onset", 2⟩)]) := by
      rw [resolveConflicts_eq [("a", ⟨"a", "Offset", 1⟩)] ⟨"a", "Onset", 2⟩
        ⟨"a", "Offset", 1⟩ rfl, if_neg h12]
      rfl
    calc validate c6CounterexampleEvents
        = validateGo [("a", ⟨"a", "Onset", 0⟩)]
            [⟨"a", "Offset", 1⟩, ⟨"a", "Offset", 2⟩, ⟨"a", "Onset", 2⟩] := rfl
      _ = validateGo [("a", ⟨"a", "Offset", 1⟩)]
            [⟨"a", "Offset", 2⟩, ⟨"a", "Onset", 2⟩] :=
          validateGo_cons_some _ _ _ ⟨"a", "Onset", 0⟩ _ rfl hrc2
      _ = validateGo [("a", ⟨"a", "Offset", 1⟩)] [⟨"a", "Onset", 2⟩] :=
          validateGo_cons_some _ _ _ ⟨"a", "Offset", 1⟩ _ rfl hrc3
      _ = validateGo [("a", ⟨"a", "Onset", 2⟩)] [] :=
          validateGo_cons_some _ _ _ ⟨"a", "Offset", 1⟩ _ rfl hrc4
      _ = [] := rfl
  · simp only [c6CounterexampleEvents, hasCloseConsecutiveSameDefPair,
      Bool.or_eq_true, Bool.and_eq_true, decide_eq_true_eq]
    exact Or.inr (Or.inr (Or.inl ⟨trivial, h22⟩))
  · simp only [sortedByOnset, c6CounterexampleEvents, List.pairwise_cons,
      List.mem_cons, List.mem_singleton, List.Pairwise.nil]
    norm_num

/-- One issue-flagging step of the validate walk on a tracked definition. -/
theorem validateGo_cons_issue (m : List (String × EventM)) (e : EventM)
    (rest : List EventM) (cur : EventM) (i : Issue) (tl : List Issue)
    (m2 : List (String × EventM))
    (hget : eventMapGet m e.defName = some cur)
    (hrc : resolveConflicts m e = (i :: tl, m2)) :
    validateGo m (e :: rest) = i :: tl := by
  rw [validateGo, hget, hrc]

/-- C6 amended: when an event's definition already has a tracked current event,
_resolveConflicts flags the simultaneous-duplicate error exactly when the
absolute difference between the tracked event's onset and the event's onset is
strictly below TOLERANCE = 1e-7; the tracked event is not always the consecutive
predecessor, because an Offset following an Offset is not recorded. The two
example sequences of the claim behave as stated. -/
theorem c6_simultaneous_within_tolerance
    (m : List (String × EventM)) (e cur : EventM)
    (hget : eventMapGet m e.defName = some cur) :
    ((resolveConflicts m e).1 =
        [{ internalCode := "simultaneousDuplicateEvents" }] ↔
      |cur.onset - e.onset| < TOLERANCE) ∧
    TOLERANCE = 1 / 10000000 ∧
    validate c6ExampleClean = [] ∧
    validate c6ExampleDup = [{ internalCode := "simultaneousDuplicateEvents" }] := by
  refine ⟨?_, rfl, ?_, ?_⟩
  · rw [resolveConflicts_eq m e cur hget]
    split_ifs <;> simp_all
  · have h05 : ¬ (|(0 : ℚ) - 5| < TOLERANCE) := by
      rw [abs_of_nonpos (by norm_num)]
      norm_num [TOLERANCE]
    have h5q : ¬ (|(5 : ℚ) - 50000001 / 10000000| < TOLERANCE) := by
      rw [abs_of_nonpos (by norm_num)]
      norm_num [TOLERANCE]
    have hrc2 : resolveConflicts [("a", ⟨"a", "Onset", 0⟩)] ⟨"a", "Offset", 5⟩ =
        ([], [("a", ⟨"a", "Offset", 5⟩)]) := by
      rw [resolveConflicts_eq [("a", ⟨"a", "Onset", 0⟩)] ⟨"a", "Offset", 5⟩
        ⟨"a", "Onset", 0⟩ rfl, if_neg h05]
      rfl
    have hrc3 : resolveConflicts [("a", ⟨"a", "Offset", 5⟩)]
        ⟨"a", "Onset", 50000001 / 10000000⟩ =
        ([], [("a", ⟨"a", "Onset", 50000001 / 10000000⟩)]) := by
      rw [resolveConflicts_eq [("a", ⟨"a", "Offset", 5⟩)]
        ⟨"a", "Onset", 50000001 / 10000000⟩ ⟨"a", "Offset", 5⟩ rfl, if_neg h5q]
      rfl
    calc validate c6ExampleClean
        = validateGo [("a", ⟨"a", "Onset", 0⟩)]
            [⟨"a", "Offset", 5⟩, ⟨"a", "Onset", 50000001 / 10000000⟩] := rfl
      _ = validateGo [("a", ⟨"a", "Offset", 5⟩)]
            [⟨"a", "Onset", 50000001 / 10000000⟩] :=
          validateGo_cons_some _ _ _ ⟨"a", "Onset", 0⟩ _ rfl hrc2
      _ = validateGo [("a", ⟨"a", "Onset", 50000001 / 10000000⟩)] [] :=
          validateGo_cons_some _ _ _ ⟨"a", "Offset", 5⟩ _ rfl hrc3
      _ = [] := rfl
  · have h22 : |(2 : ℚ) - 2| < TOLERANCE := by norm_num [TOLERANCE]
    have hrc : resolveConflicts [("a", ⟨"a", "Onset", 2⟩)] ⟨"a", "Onset", 2⟩ =
        ([{ internalCode := "simultaneousDuplicateEvents" }],
          [("a", ⟨"a", "Onset", 2⟩)]) := by
      rw [resolveConflicts_eq [("a", ⟨"a", "Onset", 2⟩)] ⟨"a", "Onset", 2⟩
        ⟨"a", "Onset", 2⟩ rfl, if_pos h22]
    calc validate c6ExampleDup
        = validateGo [("a", ⟨"a", "Onset", 2⟩)] [⟨"a", "Onset", 2⟩] := rfl
      _ = [{ internalCode := "simultaneousDuplicateEvents" }] :=
          validateGo_cons_issue _ _ _ ⟨"a", "Onset", 2⟩ _ _ _ rfl hrc

/-- Witness for the amended C6 theorem at a concrete map and event. -/
theorem c6_witness :
    ((resolveConflicts [("a", c6Ev2)] c6Ev2).1 =
        [{ internalCode := "simultaneousDuplicateEvents" }] ↔
      |c6Ev2.onset - c6Ev2.onset| < TOLERANCE) ∧
    TOLERANCE = 1 / 10000000 ∧
    validate c6ExampleClean = [] ∧
    validate c6ExampleDup = [{ internalCode := "simultaneousDuplicateEvents" }] :=
  c6_simultaneous_within_tolerance [("a", c6Ev2)] c6Ev2 c6Ev2 rfl

/-! ## C7: subgroup count bounds -/

/-- C7 counterexample: a group whose single subgroup holds only a column splice
has exactly one subgroup, within the declared bounds min = max = 1 and with no
Def-expand adjustment, yet _checkAllowedGroups reports invalidNumberOfSubgroups:
the minimum check counts only subgroups that contain at least one tag, not the
subgroup count itself. -/
theorem c7_counterexample :
    ReservedChecker.checkAllowedGroups testReserved c7GroupChildren
        c7Requirements = [{ internalCode := "invalidNumberOfSubgroups" }] ∧
    c7Requirements.minNonDefSubgroups = some 1 ∧
    c7Requirements.maxNonDefSubgroups = some 1 ∧
    ReservedChecker.defAdjustmentOf testReserved c7GroupChildren = 0 ∧
    (topGroupsOf c7GroupChildren).length = 1 ∧
    ¬ ((topGroupsOf c7GroupChildren).length < 1 ∨
        1 < (topGroupsOf c7GroupChildren).length) := by
  refine ⟨rfl, rfl, rfl, rfl, rfl, ?_⟩
  rw [show (topGroupsOf c7GroupChildren).length = 1 from rfl]
  decide

/-- C7 amended: with both subgroup bounds declared, _checkAllowedGroups returns
the invalidNumberOfSubgroups issue exactly when the total subgroup count exceeds
the maximum plus the Def-expand adjustment, or the number of subgroups containing
at least one tag falls short of the minimum plus the adjustment; the maximum is
checked against all subgroups, but the minimum counts only subgroups with tags. -/
theorem c7_subgroup_bounds (r : ReservedCheckerM) (children : List ParsedNode)
    (req : ReservedTagRequirementM) (mn mx : Nat)
    (hmin : req.minNonDefSubgroups = some mn)
    (hmax : req.maxNonDefSubgroups = some mx) :
    ReservedChecker.checkAllowedGroups r children req =
      (if ((topGroupsOf children).length : Int) -
            ReservedChecker.defAdjustmentOf r children > (mx : Int) ∨
          ((topGroupsOf children).filter
            (fun sg => 0 < (groupAllTags sg.2).length)).length <
            mn + ReservedChecker.defAdjustmentOf r children then
        [{ internalCode := "invalidNumberOfSubgroups" }]
      else []) := by
  simp only [ReservedChecker.checkAllowedGroups,
    ReservedChecker.checkMinGroupCount, hmin, hmax]
  by_cases hA : ((topGroupsOf children).length : Int) -
      ReservedChecker.defAdjustmentOf r children > (mx : Int)
  · simp [hA]
  · by_cases hB : ((topGroupsOf children).filter
        (fun sg => 0 < (groupAllTags sg.2).length)).length <
        mn + ReservedChecker.defAdjustmentOf r children
    · simp [hA, hB]
    · simp [hA, hB]

/-- Witness for the amended C7 theorem at the counterexample fixture, whose
declared bounds are min = max = 1. -/
theorem c7_witness :
    ReservedChecker.checkAllowedGroups testReserved c7GroupChildren
        c7Requirements =
      (if ((topGroupsOf c7GroupChildren).length : Int) -
            ReservedChecker.defAdjustmentOf testReserved c7GroupChildren >
            ((1 : Nat) : Int) ∨
          ((topGroupsOf c7GroupChildren).filter
            (fun sg => 0 < (groupAllTags sg.2).length)).length <
            1 + ReservedChecker.defAdjustmentOf testReserved c7GroupChildren then
        [{ internalCode := "invalidNumberOfSubgroups" }]
      else []) :=
  c7_subgroup_bounds testReserved c7GroupChildren c7Requirements 1 1 rfl rfl

/-! ## C8: the literal placeholder value -/

/-- C8: for every schema and every value-taking schema tag, checkValue accepts
the literal placeholder string unconditionally, returning the empty success
message regardless of any declared value classes or the default
no-braces/no-commas rule. -/
theorem c8_placeholder_always_accepted (sc : HedSchemaM) (raw : SchemaTagM)
    (_hvalue : raw.isValueTag = true) :
    checkValue sc raw "#" = "" := rfl

/-- Witness for C8 at a value-taking tag whose declared value class rejects every
value under the test schema. -/
theorem c8_witness :
    valueTagLit.isValueTag = true ∧ checkValue testSchema valueTagLit "#" = "" :=
  ⟨rfl, c8_placeholder_always_accepted testSchema valueTagLit rfl⟩

end HedModel
